import Mathlib

/-!
Verification development for the healthcare-facility store in `ai.py`.

The development shallowly embeds the parts of the program that the
specification's claims are about:

* the attribute codec (`_determine_attribute_type`, the `json.dumps`
  serialization used by `add_facility` / `update_facility_attribute`, and
  `_parse_attribute_value`), over a model `PyVal` of the Python values the
  codec handles (None, bool, int, float, str, list, dict);
* the SQLite-backed facility store (`add_facility`, `get_facility`,
  `update_facility_attribute`, `delete_facility`), over an explicit record
  of the three tables created by `_initialize_database`.  The model follows
  the semantics the program actually gets from `sqlite3`: the connection
  never executes `PRAGMA foreign_keys = ON`, so the declared
  `ON DELETE CASCADE` foreign keys are not enforced;
* the haversine distance `_calculate_distance` over exact reals;
* the search pipeline `search_facilities` (predicate phase, distance
  attachment, radius filter, distance sort), including the truthiness tests
  (`if latitude and longitude:`) the code performs on its optional numeric
  arguments;
* the function dispatcher `_execute_function` and its five handlers,
  including Python's keyword-argument binding (a missing required argument
  raises `TypeError`).

Python floats are modelled as finite decimal literals (sign, integer part,
fractional digits); `repr`/`float()` round-tripping of finite doubles is
represented by exact decimal round-tripping.  NaN/infinity and
exponent-notation reprs are outside the model, as are non-string dict keys
(`json.dumps` would coerce them).
-/

/-- ASCII char for a decimal digit (used by `str(int)` / `repr(float)` /
`json.dumps` number output). -/
def digitChar (d : Nat) : Char := Char.ofNat (48 + d)

/-- Numeric value of an ASCII digit char (used when parsing numbers). -/
def digitVal (c : Char) : Nat := c.toNat - 48

/-- Digit chars for a natural number, most significant first, as produced by
Python's `str`/`repr`/`json.dumps`.  Fuel-structured so that it reduces in
the kernel; `natChars` supplies enough fuel. -/
def natCharsAux : Nat → Nat → List Char
  | 0, _ => []
  | fuel + 1, n => if n < 10 then [digitChar n] else natCharsAux fuel (n / 10) ++ [digitChar (n % 10)]

def natChars (n : Nat) : List Char := natCharsAux (n + 1) n

/-- Folding step used to read a decimal digit run back into a number. -/
def parseNatVal (ds : List Char) : Nat := ds.foldl (fun a c => 10 * a + digitVal c) 0

theorem digitVal_digitChar {d : Nat} (h : d < 10) : digitVal (digitChar d) = d := by
  interval_cases d <;> decide

theorem isDigit_digitChar {d : Nat} (h : d < 10) : (digitChar d).isDigit = true := by
  interval_cases d <;> decide

theorem natCharsAux_ne_nil (fuel n : Nat) (h : n ≤ fuel) : natCharsAux (fuel + 1) n ≠ [] := by
  cases fuel with
  | zero => simp [natCharsAux, show n < 10 by omega]
  | succ f =>
    rw [natCharsAux]
    by_cases h10 : n < 10 <;> simp [h10]

theorem natCharsAux_digits : ∀ fuel n, n ≤ fuel → ∀ c ∈ natCharsAux (fuel + 1) n, c.isDigit = true := by
  intro fuel
  induction fuel with
  | zero =>
    intro n hn c hc
    simp [natCharsAux, show n < 10 by omega] at hc
    subst hc
    exact isDigit_digitChar (by omega)
  | succ f ih =>
    intro n hn c hc
    rw [natCharsAux] at hc
    by_cases h10 : n < 10
    · simp [h10] at hc
      subst hc
      exact isDigit_digitChar h10
    · simp [h10, List.mem_append] at hc
      rcases hc with hc | hc
      · exact ih (n / 10) (by omega) c hc
      · subst hc
        exact isDigit_digitChar (Nat.mod_lt _ (by omega))

theorem foldl_natCharsAux : ∀ fuel n, n ≤ fuel → ∀ a,
    List.foldl (fun a c => 10 * a + digitVal c) a (natCharsAux (fuel + 1) n)
      = a * 10 ^ (natCharsAux (fuel + 1) n).length + n := by
  intro fuel
  induction fuel with
  | zero =>
    intro n hn a
    simp [natCharsAux, show n < 10 by omega, digitVal_digitChar, parseNatVal]
    omega
  | succ f ih =>
    intro n hn a
    rw [natCharsAux]
    by_cases h10 : n < 10
    · simp [h10, digitVal_digitChar h10]
      omega
    · simp only [h10, if_false, List.foldl_append, List.length_append, List.foldl_cons,
        List.foldl_nil, List.length_cons, List.length_nil]
      rw [ih (n / 10) (by omega) a]
      rw [digitVal_digitChar (Nat.mod_lt _ (by omega))]
      have : a * 10 ^ ((natCharsAux (f + 1) (n / 10)).length + (0 + 1))
          = (a * 10 ^ (natCharsAux (f + 1) (n / 10)).length) * 10 := by
        ring
      rw [this]
      omega

theorem parseNatVal_natChars (n : Nat) : parseNatVal (natChars n) = n := by
  have := foldl_natCharsAux n n (le_refl n) 0
  simpa [parseNatVal, natChars] using this

theorem natChars_ne_nil (n : Nat) : natChars n ≠ [] := natCharsAux_ne_nil n n (le_refl n)

theorem natChars_digits (n : Nat) : ∀ c ∈ natChars n, c.isDigit = true :=
  natCharsAux_digits n n (le_refl n)

/-- `str(n)` for a Python int, as serialized by `json.dumps`. -/
def intRepr (n : Int) : List Char :=
  if n < 0 then '-' :: natChars n.natAbs else natChars n.toNat

/-- Model of a finite Python float literal: sign, integer part, fractional
digits.  `repr` of a finite double and `float()` of that repr are modelled
as the exact decimal print/parse pair below. -/
structure PFloat where
  neg : Bool
  ip : Nat
  frac : List (Fin 10)
deriving DecidableEq

/-- Digit char of a fractional digit. -/
def digitCharF (d : Fin 10) : Char := Char.ofNat (48 + d.val)

/-- Total inverse of `digitCharF` on digit chars. -/
def finDigit (c : Char) : Fin 10 := ⟨(c.toNat - 48) % 10, Nat.mod_lt _ (by omega)⟩

theorem finDigit_digitCharF : ∀ d : Fin 10, finDigit (digitCharF d) = d := by decide

theorem isDigit_digitCharF : ∀ d : Fin 10, (digitCharF d).isDigit = true := by decide

/-- `repr` of the modelled float (always prints a decimal point, as Python's
float repr does for non-exponent magnitudes). -/
def floatRepr (f : PFloat) : List Char :=
  (if f.neg then ['-'] else []) ++ natChars f.ip ++ '.' :: f.frac.map digitCharF

/-- The rational value denoted by a modelled float (used for SQLite REAL
comparisons and truthiness tests). -/
def PFloat.toRat (f : PFloat) : ℚ :=
  (if f.neg then -1 else 1) *
    ((f.ip : ℚ) + (f.frac.foldr (fun d acc => ((d.val : ℚ) + acc) / 10) 0))

/-- The real value of a modelled float (used by the haversine computation). -/
noncomputable def PFloat.toReal (f : PFloat) : ℝ := ((f.toRat : ℚ) : ℝ)

theorem takeWhile_digits_append {A B : List Char} (hA : ∀ c ∈ A, c.isDigit = true)
    (hB : B = [] ∨ ∃ d B', B = d :: B' ∧ d.isDigit = false) :
    (A ++ B).takeWhile Char.isDigit = A ∧ (A ++ B).dropWhile Char.isDigit = B := by
  induction A with
  | nil =>
    rcases hB with rfl | ⟨d, B', rfl, hd⟩
    · simp
    · simp [List.takeWhile, List.dropWhile, hd]
  | cons c t ih =>
    have hc : c.isDigit = true := hA c (by simp)
    have ht : ∀ x ∈ t, x.isDigit = true := fun x hx => hA x (by simp [hx])
    have := ih ht
    simp [List.takeWhile, List.dropWhile, hc, this.1, this.2]

/-- Sign-stripped body of Python `int(text)`: a digit run and nothing else. -/
def pyIntCore (neg : Bool) (cs : List Char) : Option Int :=
  if cs.takeWhile Char.isDigit = [] then Option.none
  else if cs.dropWhile Char.isDigit = [] then
    Option.some (if neg then -(parseNatVal (cs.takeWhile Char.isDigit) : Int)
                 else (parseNatVal (cs.takeWhile Char.isDigit) : Int))
  else Option.none

/-- Model of Python `int(text)` restricted to the canonical forms the encoder
emits: an optional sign followed by a digit run, nothing else.  Returns
`Option.none` where `int()` raises `ValueError`. -/
def parsePyInt (s : String) : Option Int :=
  match s.data with
  | [] => Option.none
  | c :: cs =>
    if c = '-' then pyIntCore true cs
    else if c = '+' then pyIntCore false cs
    else pyIntCore false (c :: cs)

/-- Sign-stripped body of Python `float(text)` restricted to plain decimal
literals (optional point and fractional digits, no exponent). -/
def pyFloatCore (neg : Bool) (cs : List Char) : Option PFloat :=
  match cs.dropWhile Char.isDigit with
  | [] =>
    if cs.takeWhile Char.isDigit = [] then Option.none
    else Option.some ⟨neg, parseNatVal (cs.takeWhile Char.isDigit), []⟩
  | c2 :: cs3 =>
    if c2 = '.' then
      if cs3.dropWhile Char.isDigit = [] then
        if cs.takeWhile Char.isDigit = [] ∧ cs3.takeWhile Char.isDigit = [] then Option.none
        else Option.some ⟨neg, parseNatVal (cs.takeWhile Char.isDigit),
               (cs3.takeWhile Char.isDigit).map finDigit⟩
      else Option.none
    else Option.none

/-- Model of Python `float(text)` on decimal literals; `Option.none` where
`float()` raises `ValueError`. -/
def parsePyFloat (s : String) : Option PFloat :=
  match s.data with
  | [] => Option.none
  | c :: cs =>
    if c = '-' then pyFloatCore true cs
    else if c = '+' then pyFloatCore false cs
    else pyFloatCore false (c :: cs)

theorem pyIntCore_natChars (neg : Bool) (a : Nat) :
    pyIntCore neg (natChars a)
      = Option.some (if neg then -(a : Int) else (a : Int)) := by
  have htk := takeWhile_digits_append (natChars_digits a) (Or.inl rfl) (B := [])
  rw [List.append_nil] at htk
  rw [pyIntCore, htk.1, htk.2, if_neg (natChars_ne_nil a), if_pos rfl, parseNatVal_natChars]

theorem natChars_head_not_sign (a : Nat) :
    ∃ c t, natChars a = c :: t ∧ c.isDigit = true ∧ c ≠ '-' ∧ c ≠ '+' := by
  obtain ⟨c, t, hct⟩ : ∃ c t, natChars a = c :: t := by
    cases h : natChars a with
    | nil => exact absurd h (natChars_ne_nil a)
    | cons c t => exact ⟨c, t, rfl⟩
  have hcd : c.isDigit = true := natChars_digits a c (by rw [hct]; simp)
  refine ⟨c, t, hct, hcd, ?_, ?_⟩
  · intro h
    rw [h] at hcd
    exact absurd hcd (by decide)
  · intro h
    rw [h] at hcd
    exact absurd hcd (by decide)

theorem parsePyInt_intRepr (n : Int) : parsePyInt (String.mk (intRepr n)) = Option.some n := by
  by_cases hneg : n < 0
  · rw [show String.mk (intRepr n) = ⟨'-' :: natChars n.natAbs⟩ by rw [intRepr, if_pos hneg]]
    show parsePyInt ⟨'-' :: natChars n.natAbs⟩ = Option.some n
    rw [parsePyInt]
    dsimp only
    rw [if_pos rfl, pyIntCore_natChars, if_pos rfl]
    congr 1
    omega
  · obtain ⟨c, t, hct, hcd, hc1, hc2⟩ := natChars_head_not_sign n.toNat
    rw [show String.mk (intRepr n) = ⟨c :: t⟩ by rw [intRepr, if_neg hneg, hct]]
    show parsePyInt ⟨c :: t⟩ = Option.some n
    rw [parsePyInt]
    dsimp only
    rw [if_neg hc1, if_neg hc2, ← hct, pyIntCore_natChars, if_neg (by simp)]
    congr 1
    omega

theorem map_finDigit_digitCharF (l : List (Fin 10)) :
    (l.map digitCharF).map finDigit = l := by
  induction l with
  | nil => rfl
  | cons d t ih => simp [ih, finDigit_digitCharF]

theorem pyFloatCore_floatBody (neg : Bool) (ip : Nat) (frac : List (Fin 10)) :
    pyFloatCore neg (natChars ip ++ '.' :: frac.map digitCharF)
      = Option.some ⟨neg, ip, frac⟩ := by
  have hfr : ∀ c ∈ frac.map digitCharF, c.isDigit = true := by
    intro c hc
    rw [List.mem_map] at hc
    obtain ⟨d, _, rfl⟩ := hc
    exact isDigit_digitCharF d
  have htk1 := takeWhile_digits_append (natChars_digits ip)
      (Or.inr ⟨'.', frac.map digitCharF, rfl, by decide⟩)
  have htk2 := takeWhile_digits_append hfr (Or.inl rfl) (B := [])
  rw [List.append_nil] at htk2
  rw [pyFloatCore, htk1.2]
  dsimp only
  rw [if_pos rfl, htk2.2, if_pos rfl, htk1.1, htk2.1,
    if_neg (by simp [natChars_ne_nil ip]), parseNatVal_natChars, map_finDigit_digitCharF]

theorem parsePyFloat_floatRepr (f : PFloat) :
    parsePyFloat (String.mk (floatRepr f)) = Option.some f := by
  rcases f with ⟨neg, ip, frac⟩
  cases neg with
  | true =>
    rw [show String.mk (floatRepr ⟨true, ip, frac⟩)
        = ⟨'-' :: (natChars ip ++ '.' :: frac.map digitCharF)⟩ by rw [floatRepr]; rfl]
    show parsePyFloat ⟨'-' :: (natChars ip ++ '.' :: frac.map digitCharF)⟩
      = Option.some ⟨true, ip, frac⟩
    rw [parsePyFloat]
    dsimp only
    rw [if_pos rfl, pyFloatCore_floatBody]
  | false =>
    obtain ⟨c, t, hct, hcd, hc1, hc2⟩ := natChars_head_not_sign ip
    rw [show String.mk (floatRepr ⟨false, ip, frac⟩)
        = ⟨c :: (t ++ '.' :: frac.map digitCharF)⟩ by
      rw [floatRepr]
      dsimp only
      rw [hct]
      rfl]
    show parsePyFloat ⟨c :: (t ++ '.' :: frac.map digitCharF)⟩
      = Option.some ⟨false, ip, frac⟩
    rw [parsePyFloat]
    dsimp only
    rw [if_neg hc1, if_neg hc2,
      show c :: (t ++ '.' :: frac.map digitCharF)
          = natChars ip ++ '.' :: frac.map digitCharF by rw [hct]; rfl,
      pyFloatCore_floatBody]

/-- Model of the Python values handled by the attribute codec: the JSON-
serializable values (`None`, `bool`, `int`, `float`, `str`, `list`, `dict`
with string keys).  `_determine_attribute_type` inspects the top-level
constructor; `json.dumps` / `json.loads` work on the whole tree. -/
inductive PyVal where
  | none
  | bool (b : Bool)
  | int (n : Int)
  | float (f : PFloat)
  | str (s : String)
  | list (xs : List PyVal)
  | dict (kvs : List (String × PyVal))

/-- Opening brace character (ASCII 123). -/
def lbrace : Char := Char.ofNat 123

/-- Closing brace character (ASCII 125). -/
def rbrace : Char := Char.ofNat 125

/-- Lowercase hex digit char, as in Python's `\uXXXX` escapes. -/
def hexChar (n : Nat) : Char := if n < 10 then Char.ofNat (48 + n) else Char.ofNat (87 + n)

/-- Value of a lowercase hex digit char. -/
def hexVal (c : Char) : Nat := if c.toNat ≤ 57 then c.toNat - 48 else c.toNat - 87

theorem hexVal_hexChar {n : Nat} (h : n < 16) : hexVal (hexChar n) = n := by
  interval_cases n <;> decide

/-- `json.dumps` escaping of one string character (the escapes the modelled
values can produce: quote, backslash, and `\u00XX` for control chars). -/
def escChar (c : Char) : List Char :=
  if c = '"' then ['\\', '"']
  else if c = '\\' then ['\\', '\\']
  else if c.toNat < 32 then
    ['\\', 'u', '0', '0', hexChar (c.toNat / 16), hexChar (c.toNat % 16)]
  else [c]

/-- `json.dumps` escaping of a string body. -/
def escapeChars (s : List Char) : List Char := s.foldr (fun c r => escChar c ++ r) []

mutual
/-- Model of `json.dumps(value)` (default separators), as a char list. -/
def dumpsV : PyVal → List Char
  | PyVal.none => ['n', 'u', 'l', 'l']
  | PyVal.bool true => ['t', 'r', 'u', 'e']
  | PyVal.bool false => ['f', 'a', 'l', 's', 'e']
  | PyVal.int n => intRepr n
  | PyVal.float f => floatRepr f
  | PyVal.str s => '"' :: escapeChars s.data ++ ['"']
  | PyVal.list xs => '[' :: dumpsL xs ++ [']']
  | PyVal.dict kvs => lbrace :: dumpsM kvs ++ [rbrace]

/-- `json.dumps` of array elements, separated by `", "`. -/
def dumpsL : List PyVal → List Char
  | [] => []
  | [x] => dumpsV x
  | x :: y :: t => dumpsV x ++ ',' :: ' ' :: dumpsL (y :: t)

/-- `json.dumps` of object members, `"key": value` separated by `", "`. -/
def dumpsM : List (String × PyVal) → List Char
  | [] => []
  | [(k, v)] => '"' :: escapeChars k.data ++ '"' :: ':' :: ' ' :: dumpsV v
  | (k, v) :: h :: t =>
    ('"' :: escapeChars k.data ++ '"' :: ':' :: ' ' :: dumpsV v) ++ ',' :: ' ' :: dumpsM (h :: t)
end

/-- String form of `json.dumps(value)`. -/
def pyDumps (v : PyVal) : String := String.mk (dumpsV v)

/-- Consume an expected literal char sequence (used for `null`/`true`/`false`). -/
def expectChars : List Char → List Char → Option (List Char)
  | [], cs => Option.some cs
  | _ :: _, [] => Option.none
  | e :: es, c :: cs => if c = e then expectChars es cs else Option.none

/-- Parse a JSON string body up to the closing quote, undoing the escapes of
`escChar`.  Returns the decoded chars and the remainder after the quote.
Fuel-structured (one unit per decoded char) so it reduces in the kernel;
callers supply ample fuel. -/
def parseStrAux : Nat → List Char → Option (List Char × List Char)
  | 0, _ => Option.none
  | _ + 1, [] => Option.none
  | fuel + 1, c :: cs =>
    if c = '"' then Option.some ([], cs)
    else if c = '\\' then
      match cs with
      | [] => Option.none
      | e :: cs2 =>
        if e = '"' then (parseStrAux fuel cs2).map (fun p => ('"' :: p.1, p.2))
        else if e = '\\' then (parseStrAux fuel cs2).map (fun p => ('\\' :: p.1, p.2))
        else if e = 'u' then
          match cs2 with
          | h1 :: h2 :: h3 :: h4 :: cs3 =>
            (parseStrAux fuel cs3).map (fun p =>
              (Char.ofNat (((hexVal h1 * 16 + hexVal h2) * 16 + hexVal h3) * 16 + hexVal h4)
                :: p.1, p.2))
          | _ => Option.none
        else Option.none
    else (parseStrAux fuel cs).map (fun p => (c :: p.1, p.2))

/-- Parse a JSON number after an optional leading minus: a digit run with an
optional fractional part.  A number with a decimal point loads as a Python
float, one without as an int, as `json.loads` does. -/
def parseJNum (neg : Bool) (cs : List Char) : Option (PyVal × List Char) :=
  if cs.takeWhile Char.isDigit = [] then Option.none
  else
    match cs.dropWhile Char.isDigit with
    | [] => Option.some (PyVal.int (if neg then -(parseNatVal (cs.takeWhile Char.isDigit) : Int)
                          else (parseNatVal (cs.takeWhile Char.isDigit) : Int)), [])
    | c2 :: cs3 =>
      if c2 = '.' then
        Option.some (PyVal.float ⟨neg, parseNatVal (cs.takeWhile Char.isDigit),
            (cs3.takeWhile Char.isDigit).map finDigit⟩,
          cs3.dropWhile Char.isDigit)
      else
        Option.some (PyVal.int (if neg then -(parseNatVal (cs.takeWhile Char.isDigit) : Int)
                          else (parseNatVal (cs.takeWhile Char.isDigit) : Int)), c2 :: cs3)

mutual
/-- Fueled model of `json.loads` on the grammar `json.dumps` emits.  The fuel
only bounds nesting recursion; `jsonLoads` supplies enough for its input. -/
def parseJ : Nat → List Char → Option (PyVal × List Char)
  | 0, _ => Option.none
  | _ + 1, [] => Option.none
  | fuel + 1, c :: cs =>
    if c = 'n' then (expectChars ['u', 'l', 'l'] cs).map (fun r => (PyVal.none, r))
    else if c = 't' then (expectChars ['r', 'u', 'e'] cs).map (fun r => (PyVal.bool true, r))
    else if c = 'f' then (expectChars ['a', 'l', 's', 'e'] cs).map (fun r => (PyVal.bool false, r))
    else if c = '"' then (parseStrAux (cs.length + 1) cs).map (fun p => (PyVal.str (String.mk p.1), p.2))
    else if c = '[' then
      match cs with
      | [] => Option.none
      | d :: r =>
        if d = ']' then Option.some (PyVal.list [], r)
        else (parseElems fuel (d :: r)).map (fun p => (PyVal.list p.1, p.2))
    else if c = lbrace then
      match cs with
      | [] => Option.none
      | d :: r =>
        if d = rbrace then Option.some (PyVal.dict [], r)
        else (parseMembers fuel (d :: r)).map (fun p => (PyVal.dict p.1, p.2))
    else if c = '-' then parseJNum true cs
    else parseJNum false (c :: cs)

/-- Parse one-or-more array elements followed by `]`. -/
def parseElems : Nat → List Char → Option (List PyVal × List Char)
  | 0, _ => Option.none
  | fuel + 1, cs =>
    match parseJ fuel cs with
    | Option.none => Option.none
    | Option.some (v, r) =>
      match r with
      | ']' :: r2 => Option.some ([v], r2)
      | ',' :: ' ' :: r2 => (parseElems fuel r2).map (fun p => (v :: p.1, p.2))
      | _ => Option.none

/-- Parse one-or-more object members followed by a closing brace. -/
def parseMembers : Nat → List Char → Option (List (String × PyVal) × List Char)
  | 0, _ => Option.none
  | fuel + 1, cs =>
    match cs with
    | [] => Option.none
    | c0 :: cs1 =>
      if c0 = '"' then
      match parseStrAux (cs1.length + 1) cs1 with
      | Option.none => Option.none
      | Option.some (k, r1) =>
        match r1 with
        | ':' :: ' ' :: r2 =>
          match parseJ fuel r2 with
          | Option.none => Option.none
          | Option.some (v, r3) =>
            match r3 with
            | [] => Option.none
            | c :: r4 =>
              if c = rbrace then Option.some ([(String.mk k, v)], r4)
              else if c = ',' then
                match r4 with
                | ' ' :: r5 => (parseMembers fuel r5).map (fun p => ((String.mk k, v) :: p.1, p.2))
                | _ => Option.none
              else Option.none
        | _ => Option.none
      else Option.none
end

/-- Model of `json.loads(text)`: parse with ample fuel and require the whole
input to be consumed (as `json.loads` does). -/
def jsonLoads (s : String) : Option PyVal :=
  match parseJ (s.data.length + 1) s.data with
  | Option.some (v, []) => Option.some v
  | _ => Option.none

theorem String.mk_data (s : String) : String.mk s.data = s := by cases s; rfl

theorem expectChars_append (es rest : List Char) :
    expectChars es (es ++ rest) = Option.some rest := by
  induction es with
  | nil => rfl
  | cons e es ih => simpa [expectChars] using ih

theorem parseStrAux_escape : ∀ (s : List Char) (F : Nat) (rest : List Char), s.length < F →
    parseStrAux F (escapeChars s ++ '"' :: rest) = Option.some (s, rest) := by
  intro s
  induction s with
  | nil =>
    intro F rest hF
    obtain ⟨G, rfl⟩ : ∃ G, F = G + 1 := ⟨F - 1, by omega⟩
    rfl
  | cons c t ih =>
    intro F rest hF
    obtain ⟨G, rfl⟩ : ∃ G, F = G + 1 := ⟨F - 1, by omega⟩
    have iht := ih G rest (by simp at hF; omega)
    by_cases h1 : c = '"'
    · subst h1
      have hstep : parseStrAux (G + 1) (escapeChars ('"' :: t) ++ '"' :: rest)
          = Option.map (fun p => ('"' :: p.1, p.2)) (parseStrAux G (escapeChars t ++ '"' :: rest)) := rfl
      rw [hstep, iht]
      rfl
    · by_cases h2 : c = '\\'
      · subst h2
        have hstep : parseStrAux (G + 1) (escapeChars ('\\' :: t) ++ '"' :: rest)
            = Option.map (fun p => ('\\' :: p.1, p.2)) (parseStrAux G (escapeChars t ++ '"' :: rest)) := rfl
        rw [hstep, iht]
        rfl
      · by_cases h3 : c.toNat < 32
        · have hesc : escapeChars (c :: t) ++ '"' :: rest
              = '\\' :: 'u' :: '0' :: '0' :: hexChar (c.toNat / 16) :: hexChar (c.toNat % 16)
                :: (escapeChars t ++ '"' :: rest) := by
            show escChar c ++ escapeChars t ++ '"' :: rest = _
            rw [escChar, if_neg h1, if_neg h2, if_pos h3]
            rfl
          rw [hesc]
          have hstep : parseStrAux (G + 1) ('\\' :: 'u' :: '0' :: '0' :: hexChar (c.toNat / 16)
                :: hexChar (c.toNat % 16) :: (escapeChars t ++ '"' :: rest))
              = Option.map (fun p =>
                  (Char.ofNat (((hexVal '0' * 16 + hexVal '0') * 16 + hexVal (hexChar (c.toNat / 16))) * 16
                    + hexVal (hexChar (c.toNat % 16))) :: p.1, p.2))
                  (parseStrAux G (escapeChars t ++ '"' :: rest)) := rfl
          rw [hstep, iht]
          have hv : ((hexVal '0' * 16 + hexVal '0') * 16 + hexVal (hexChar (c.toNat / 16))) * 16
              + hexVal (hexChar (c.toNat % 16)) = c.toNat := by
            rw [show hexVal '0' = 0 from rfl]
            rw [hexVal_hexChar (by omega), hexVal_hexChar (by omega)]
            omega
          rw [hv, Char.ofNat_toNat]
          rfl
        · have hesc : escapeChars (c :: t) ++ '"' :: rest = c :: (escapeChars t ++ '"' :: rest) := by
            show escChar c ++ escapeChars t ++ '"' :: rest = _
            rw [escChar, if_neg h1, if_neg h2, if_neg h3]
            rfl
          rw [hesc, parseStrAux.eq_def]
          dsimp only
          rw [if_neg h1, if_neg h2, iht]
          rfl

/-- Heads that `json.dumps` output can start with. -/
def headJOk (c : Char) : Prop :=
  c = 'n' ∨ c = 't' ∨ c = 'f' ∨ c = '"' ∨ c = '[' ∨ c = lbrace ∨ c = '-' ∨ c.isDigit = true

theorem dumpsV_head (v : PyVal) : ∃ c t, dumpsV v = c :: t ∧ headJOk c := by
  cases v with
  | none => exact ⟨'n', _, rfl, Or.inl rfl⟩
  | bool b =>
    cases b with
    | true => exact ⟨'t', _, rfl, Or.inr (Or.inl rfl)⟩
    | false => exact ⟨'f', _, rfl, Or.inr (Or.inr (Or.inl rfl))⟩
  | int n =>
    by_cases hn : n < 0
    · exact ⟨'-', _, by rw [dumpsV, intRepr, if_pos hn],
        Or.inr (Or.inr (Or.inr (Or.inr (Or.inr (Or.inr (Or.inl rfl))))))⟩
    · obtain ⟨c, t, hct, hcd, _, _⟩ := natChars_head_not_sign n.toNat
      exact ⟨c, t, by rw [dumpsV, intRepr, if_neg hn, hct],
        Or.inr (Or.inr (Or.inr (Or.inr (Or.inr (Or.inr (Or.inr hcd))))))⟩
  | float f =>
    rcases f with ⟨neg, ip, frac⟩
    cases neg with
    | true =>
      exact ⟨'-', _, by rw [dumpsV, floatRepr]; rfl,
        Or.inr (Or.inr (Or.inr (Or.inr (Or.inr (Or.inr (Or.inl rfl))))))⟩
    | false =>
      obtain ⟨c, t, hct, hcd, _, _⟩ := natChars_head_not_sign ip
      refine ⟨c, t ++ '.' :: frac.map digitCharF, ?_,
        Or.inr (Or.inr (Or.inr (Or.inr (Or.inr (Or.inr (Or.inr hcd))))))⟩
      rw [dumpsV, floatRepr]
      dsimp only
      rw [hct]
      rfl
  | str s => exact ⟨'"', _, rfl, Or.inr (Or.inr (Or.inr (Or.inl rfl)))⟩
  | list xs => exact ⟨'[', _, rfl, Or.inr (Or.inr (Or.inr (Or.inr (Or.inl rfl))))⟩
  | dict kvs => exact ⟨lbrace, _, rfl, Or.inr (Or.inr (Or.inr (Or.inr (Or.inr (Or.inl rfl)))))⟩

theorem headJOk_ne_closers {c : Char} (h : headJOk c) : c ≠ ']' ∧ c ≠ rbrace := by
  rcases h with rfl | rfl | rfl | rfl | rfl | rfl | rfl | hd
  · exact ⟨by decide, by decide⟩
  · exact ⟨by decide, by decide⟩
  · exact ⟨by decide, by decide⟩
  · exact ⟨by decide, by decide⟩
  · exact ⟨by decide, by decide⟩
  · exact ⟨by decide, by decide⟩
  · exact ⟨by decide, by decide⟩
  · constructor
    · intro h
      rw [h] at hd
      exact absurd hd (by decide)
    · intro h
      rw [h] at hd
      exact absurd hd (by decide)

/-- The chars that may legally follow a serialized number in the grammar:
nothing, or a char that is neither a digit nor a decimal point. -/
def DelimOk : List Char → Prop
  | [] => True
  | c :: _ => c.isDigit = false ∧ c ≠ '.'

theorem delimOk_shape {rest : List Char} (h : DelimOk rest) :
    rest = [] ∨ ∃ d B', rest = d :: B' ∧ d.isDigit = false := by
  cases rest with
  | nil => exact Or.inl rfl
  | cons d B' => exact Or.inr ⟨d, B', rfl, h.1⟩

theorem parseJNum_intBody (neg : Bool) (a : Nat) (rest : List Char) (hrest : DelimOk rest) :
    parseJNum neg (natChars a ++ rest)
      = Option.some (PyVal.int (if neg then -(a : Int) else (a : Int)), rest) := by
  have htk := takeWhile_digits_append (natChars_digits a) (delimOk_shape hrest)
  rw [parseJNum, htk.1, htk.2, if_neg (natChars_ne_nil a)]
  cases rest with
  | nil => rw [parseNatVal_natChars]
  | cons d B' =>
    dsimp only
    rw [if_neg hrest.2, parseNatVal_natChars]

theorem parseJNum_floatBody (neg : Bool) (ip : Nat) (frac : List (Fin 10)) (rest : List Char)
    (hrest : DelimOk rest) :
    parseJNum neg (natChars ip ++ ('.' :: (frac.map digitCharF ++ rest)))
      = Option.some (PyVal.float ⟨neg, ip, frac⟩, rest) := by
  have hfr : ∀ c ∈ frac.map digitCharF, c.isDigit = true := by
    intro c hc
    rw [List.mem_map] at hc
    obtain ⟨d, _, rfl⟩ := hc
    exact isDigit_digitCharF d
  have htk1 := takeWhile_digits_append (natChars_digits ip)
      (Or.inr ⟨'.', frac.map digitCharF ++ rest, rfl, by decide⟩)
  have htk2 := takeWhile_digits_append hfr (delimOk_shape hrest)
  rw [parseJNum]
  rw [show (natChars ip ++ '.' :: (frac.map digitCharF ++ rest)).takeWhile Char.isDigit
      = natChars ip from htk1.1]
  rw [show (natChars ip ++ '.' :: (frac.map digitCharF ++ rest)).dropWhile Char.isDigit
      = '.' :: (frac.map digitCharF ++ rest) from htk1.2]
  rw [if_neg (natChars_ne_nil ip)]
  dsimp only
  rw [if_pos rfl, htk2.1, htk2.2, parseNatVal_natChars, map_finDigit_digitCharF]

theorem escapeChars_length_ge (s : List Char) : s.length ≤ (escapeChars s).length := by
  induction s with
  | nil => simp [escapeChars]
  | cons c t ih =>
    have hesc : escapeChars (c :: t) = escChar c ++ escapeChars t := rfl
    have h1 : 1 ≤ (escChar c).length := by
      rw [escChar]
      by_cases h1 : c = '"'
      · simp [h1]
      · by_cases h2 : c = '\\'
        · simp [h1, h2]
        · by_cases h3 : c.toNat < 32 <;> simp [h1, h2, h3]
    rw [hesc]
    simp only [List.length_append, List.length_cons]
    omega

theorem dumpsV_length_pos (v : PyVal) : 1 ≤ (dumpsV v).length := by
  obtain ⟨c, t, hv, -⟩ := dumpsV_head v
  rw [hv]
  simp

theorem dumpsV_list_length (xs : List PyVal) :
    (dumpsV (PyVal.list xs)).length = (dumpsL xs).length + 2 := by
  rw [dumpsV]
  simp

theorem dumpsV_dict_length (kvs : List (String × PyVal)) :
    (dumpsV (PyVal.dict kvs)).length = (dumpsM kvs).length + 2 := by
  rw [dumpsV]
  simp

theorem dumpsL_cons₂_length (x y : PyVal) (t : List PyVal) :
    (dumpsL (x :: y :: t)).length = (dumpsV x).length + 2 + (dumpsL (y :: t)).length := by
  rw [dumpsL]
  simp
  omega

theorem dumpsM_single_length (k : String) (v : PyVal) :
    (dumpsM [(k, v)]).length = (escapeChars k.data).length + 4 + (dumpsV v).length := by
  rw [dumpsM]
  simp
  omega

theorem dumpsM_cons₂_length (k : String) (v : PyVal) (h : String × PyVal)
    (t : List (String × PyVal)) :
    (dumpsM ((k, v) :: h :: t)).length
      = (escapeChars k.data).length + 4 + (dumpsV v).length + 2 + (dumpsM (h :: t)).length := by
  rw [dumpsM]
  simp
  omega

theorem digit_not_heads {c : Char} (h : c.isDigit = true) :
    c ≠ 'n' ∧ c ≠ 't' ∧ c ≠ 'f' ∧ c ≠ '"' ∧ c ≠ '[' ∧ c ≠ lbrace ∧ c ≠ '-' := by
  refine ⟨?_, ?_, ?_, ?_, ?_, ?_, ?_⟩ <;> (rintro rfl; revert h; decide)

theorem parseJ_step (M : Nat) (c : Char) (cs : List Char) :
    parseJ (M + 1) (c :: cs) =
      (if c = 'n' then (expectChars ['u', 'l', 'l'] cs).map (fun r => (PyVal.none, r))
      else if c = 't' then (expectChars ['r', 'u', 'e'] cs).map (fun r => (PyVal.bool true, r))
      else if c = 'f' then (expectChars ['a', 'l', 's', 'e'] cs).map (fun r => (PyVal.bool false, r))
      else if c = '"' then (parseStrAux (cs.length + 1) cs).map (fun p => (PyVal.str (String.mk p.1), p.2))
      else if c = '[' then
        match cs with
        | [] => Option.none
        | d :: r =>
          if d = ']' then Option.some (PyVal.list [], r)
          else (parseElems M (d :: r)).map (fun p => (PyVal.list p.1, p.2))
      else if c = lbrace then
        match cs with
        | [] => Option.none
        | d :: r =>
          if d = rbrace then Option.some (PyVal.dict [], r)
          else (parseMembers M (d :: r)).map (fun p => (PyVal.dict p.1, p.2))
      else if c = '-' then parseJNum true cs
      else parseJNum false (c :: cs)) := rfl

theorem parseElems_step (M : Nat) (cs : List Char) :
    parseElems (M + 1) cs =
      (match parseJ M cs with
      | Option.none => Option.none
      | Option.some (v, r) =>
        match r with
        | ']' :: r2 => Option.some ([v], r2)
        | ',' :: ' ' :: r2 => (parseElems M r2).map (fun p => (v :: p.1, p.2))
        | _ => Option.none) := rfl

theorem parseMembers_step (M : Nat) (c0 : Char) (cs1 : List Char) :
    parseMembers (M + 1) (c0 :: cs1) =
      (if c0 = '"' then
        match parseStrAux (cs1.length + 1) cs1 with
        | Option.none => Option.none
        | Option.some (k, r1) =>
          match r1 with
          | ':' :: ' ' :: r2 =>
            match parseJ M r2 with
            | Option.none => Option.none
            | Option.some (v, r3) =>
              match r3 with
              | [] => Option.none
              | c :: r4 =>
                if c = rbrace then Option.some ([(String.mk k, v)], r4)
                else if c = ',' then
                  match r4 with
                  | ' ' :: r5 => (parseMembers M r5).map (fun p => ((String.mk k, v) :: p.1, p.2))
                  | _ => Option.none
                else Option.none
          | _ => Option.none
      else Option.none) := rfl

theorem parse_dumps : ∀ N : Nat,
    (∀ v rest, (dumpsV v).length ≤ N → DelimOk rest →
      parseJ N (dumpsV v ++ rest) = Option.some (v, rest)) ∧
    (∀ xs rest, xs ≠ [] → (dumpsL xs).length < N →
      parseElems N (dumpsL xs ++ ']' :: rest) = Option.some (xs, rest)) ∧
    (∀ kvs rest, kvs ≠ [] → (dumpsM kvs).length < N →
      parseMembers N (dumpsM kvs ++ rbrace :: rest) = Option.some (kvs, rest)) := by
  intro N
  induction N using Nat.strong_induction_on with
  | _ N ih =>
  refine ⟨?_, ?_, ?_⟩
  · -- values
    intro v rest hlen hrest
    obtain ⟨M, rfl⟩ : ∃ M, N = M + 1 := ⟨N - 1, by have := dumpsV_length_pos v; omega⟩
    cases v with
    | none =>
      show parseJ (M + 1) ('n' :: ('u' :: 'l' :: 'l' :: rest)) = _
      rw [parseJ_step, if_pos rfl,
        show ('u' :: 'l' :: 'l' :: rest : List Char) = ['u', 'l', 'l'] ++ rest from rfl,
        expectChars_append]
      rfl
    | bool b =>
      cases b with
      | true =>
        show parseJ (M + 1) ('t' :: ('r' :: 'u' :: 'e' :: rest)) = _
        rw [parseJ_step, if_pos rfl,
          show ('r' :: 'u' :: 'e' :: rest : List Char) = ['r', 'u', 'e'] ++ rest from rfl,
          expectChars_append]
        rfl
      | false =>
        show parseJ (M + 1) ('f' :: ('a' :: 'l' :: 's' :: 'e' :: rest)) = _
        rw [parseJ_step, if_neg (by decide), if_neg (by decide), if_pos rfl,
          show ('a' :: 'l' :: 's' :: 'e' :: rest : List Char) = ['a', 'l', 's', 'e'] ++ rest from rfl,
          expectChars_append]
        rfl
    | int n =>
      by_cases hn : n < 0
      · rw [show dumpsV (PyVal.int n) = '-' :: natChars n.natAbs by rw [dumpsV, intRepr, if_pos hn],
          List.cons_append, parseJ_step]
        rw [if_neg (by decide), if_neg (by decide), if_neg (by decide), if_neg (by decide),
          if_neg (by decide), if_neg (by decide), if_pos rfl]
        rw [parseJNum_intBody true n.natAbs rest hrest, if_pos rfl]
        have : -(n.natAbs : Int) = n := by omega
        rw [this]
      · obtain ⟨c, t, hct, hcd, -, -⟩ := natChars_head_not_sign n.toNat
        obtain ⟨h1, h2, h3, h4, h5, h6, h7⟩ := digit_not_heads hcd
        rw [show dumpsV (PyVal.int n) = natChars n.toNat by rw [dumpsV, intRepr, if_neg hn], hct,
          List.cons_append, parseJ_step]
        rw [if_neg h1, if_neg h2, if_neg h3, if_neg h4, if_neg h5, if_neg h6, if_neg h7]
        rw [show c :: (t ++ rest) = natChars n.toNat ++ rest by rw [hct]; rfl]
        rw [parseJNum_intBody false n.toNat rest hrest, if_neg (by decide)]
        have : (n.toNat : Int) = n := by omega
        rw [this]
    | float f =>
      rcases f with ⟨fneg, fip, ffrac⟩
      cases fneg with
      | true =>
        rw [show dumpsV (PyVal.float ⟨true, fip, ffrac⟩)
            = '-' :: (natChars fip ++ '.' :: ffrac.map digitCharF) by
          rw [dumpsV, floatRepr]; rfl]
        rw [List.cons_append, parseJ_step]
        rw [if_neg (by decide), if_neg (by decide), if_neg (by decide), if_neg (by decide),
          if_neg (by decide), if_neg (by decide), if_pos rfl]
        rw [show (natChars fip ++ '.' :: ffrac.map digitCharF) ++ rest
            = natChars fip ++ ('.' :: (ffrac.map digitCharF ++ rest)) by simp]
        rw [parseJNum_floatBody true fip ffrac rest hrest]
      | false =>
        obtain ⟨c, t, hct, hcd, -, -⟩ := natChars_head_not_sign fip
        obtain ⟨h1, h2, h3, h4, h5, h6, h7⟩ := digit_not_heads hcd
        rw [show dumpsV (PyVal.float ⟨false, fip, ffrac⟩)
            = natChars fip ++ '.' :: ffrac.map digitCharF by rw [dumpsV, floatRepr]; rfl]
        rw [show (natChars fip ++ '.' :: ffrac.map digitCharF) ++ rest
            = natChars fip ++ ('.' :: (ffrac.map digitCharF ++ rest)) by simp]
        rw [hct, List.cons_append, parseJ_step]
        rw [if_neg h1, if_neg h2, if_neg h3, if_neg h4, if_neg h5, if_neg h6, if_neg h7]
        rw [show c :: (t ++ ('.' :: (ffrac.map digitCharF ++ rest)))
            = natChars fip ++ ('.' :: (ffrac.map digitCharF ++ rest)) by rw [hct]; rfl]
        rw [parseJNum_floatBody false fip ffrac rest hrest]
    | str s =>
      rw [show dumpsV (PyVal.str s) ++ rest
          = '"' :: (escapeChars s.data ++ '"' :: rest) by rw [dumpsV]; simp]
      rw [parseJ_step, if_neg (by decide), if_neg (by decide), if_neg (by decide), if_pos rfl]
      rw [parseStrAux_escape s.data ((escapeChars s.data ++ '"' :: rest).length + 1) rest
        (by have h := escapeChars_length_ge s.data
            simp only [List.length_append, List.length_cons]
            omega)]
      show Option.some (PyVal.str (String.mk s.data), rest) = _
      rw [String.mk_data]
    | list xs =>
      have hlen2 : (dumpsL xs).length + 2 ≤ M + 1 := by
        rw [dumpsV_list_length] at hlen
        omega
      rw [show dumpsV (PyVal.list xs) ++ rest
          = '[' :: (dumpsL xs ++ ']' :: rest) by rw [dumpsV]; simp]
      cases xs with
      | nil =>
        show parseJ (M + 1) ('[' :: (']' :: rest)) = _
        rfl
      | cons x t =>
        obtain ⟨c0, t0, hx0, hok0⟩ := dumpsV_head x
        obtain ⟨S, hS⟩ : ∃ S, dumpsL (x :: t) = c0 :: S := by
          cases t with
          | nil => exact ⟨t0, by rw [dumpsL, hx0]⟩
          | cons y t2 =>
            refine ⟨t0 ++ ',' :: ' ' :: dumpsL (y :: t2), ?_⟩
            rw [dumpsL, hx0]
            rfl
        rw [hS, List.cons_append, parseJ_step]
        rw [if_neg (by decide), if_neg (by decide), if_neg (by decide), if_neg (by decide),
          if_pos rfl]
        show (if c0 = ']' then Option.some (PyVal.list [], S ++ ']' :: rest)
          else (parseElems M (c0 :: (S ++ ']' :: rest))).map (fun p => (PyVal.list p.1, p.2))) = _
        rw [if_neg (headJOk_ne_closers hok0).1]
        rw [show c0 :: (S ++ ']' :: rest) = dumpsL (x :: t) ++ ']' :: rest by rw [hS]; rfl]
        rw [(ih M (by omega)).2.1 (x :: t) rest (by simp) (by omega)]
        rfl
    | dict kvs =>
      have hlen2 : (dumpsM kvs).length + 2 ≤ M + 1 := by
        rw [dumpsV_dict_length] at hlen
        omega
      rw [show dumpsV (PyVal.dict kvs) ++ rest
          = lbrace :: (dumpsM kvs ++ rbrace :: rest) by rw [dumpsV]; simp]
      cases kvs with
      | nil =>
        show parseJ (M + 1) (lbrace :: (rbrace :: rest)) = _
        rfl
      | cons kv t =>
        rcases kv with ⟨k, v⟩
        obtain ⟨S, hS⟩ : ∃ S, dumpsM ((k, v) :: t) = '"' :: S := by
          cases t with
          | nil =>
            exact ⟨escapeChars k.data ++ '"' :: ':' :: ' ' :: dumpsV v, by rw [dumpsM]; rfl⟩
          | cons h2 t2 =>
            refine ⟨escapeChars k.data
              ++ '"' :: ':' :: ' ' :: (dumpsV v ++ ',' :: ' ' :: dumpsM (h2 :: t2)), ?_⟩
            rw [dumpsM]
            simp
        rw [hS, List.cons_append, parseJ_step]
        rw [if_neg (by decide), if_neg (by decide), if_neg (by decide), if_neg (by decide),
          if_neg (by decide), if_pos rfl]
        show (if ('"' : Char) = rbrace then Option.some (PyVal.dict [], S ++ rbrace :: rest)
          else (parseMembers M ('"' :: (S ++ rbrace :: rest))).map
            (fun p => (PyVal.dict p.1, p.2))) = _
        rw [if_neg (by decide)]
        rw [show ('"' : Char) :: (S ++ rbrace :: rest) = dumpsM ((k, v) :: t) ++ rbrace :: rest by
          rw [hS]; rfl]
        rw [(ih M (by omega)).2.2 ((k, v) :: t) rest (by simp) (by omega)]
        rfl
  · -- array elements
    intro xs rest hne hlen
    obtain ⟨M, rfl⟩ : ∃ M, N = M + 1 := ⟨N - 1, by omega⟩
    cases xs with
    | nil => exact absurd rfl hne
    | cons x t =>
      cases t with
      | nil =>
        have h1 := (ih M (by omega)).1 x (']' :: rest)
          (by rw [dumpsL] at hlen; omega) ⟨by decide, by decide⟩
        rw [show dumpsL [x] ++ ']' :: rest = dumpsV x ++ ']' :: rest by rw [dumpsL]]
        rw [parseElems_step, h1]
        rfl
      | cons y t2 =>
        have hxpos := dumpsV_length_pos x
        have hlen3 := dumpsL_cons₂_length x y t2
        have h1 := (ih M (by omega)).1 x (',' :: ' ' :: (dumpsL (y :: t2) ++ ']' :: rest))
          (by omega) ⟨by decide, by decide⟩
        have h2 := (ih M (by omega)).2.1 (y :: t2) rest (by simp) (by omega)
        rw [show dumpsL (x :: y :: t2) ++ ']' :: rest
            = dumpsV x ++ (',' :: ' ' :: (dumpsL (y :: t2) ++ ']' :: rest)) by
          rw [dumpsL]; simp]
        rw [parseElems_step, h1]
        show (parseElems M (dumpsL (y :: t2) ++ ']' :: rest)).map (fun p => (x :: p.1, p.2)) = _
        rw [h2]
        rfl
  · -- object members
    intro kvs rest hne hlen
    obtain ⟨M, rfl⟩ : ∃ M, N = M + 1 := ⟨N - 1, by omega⟩
    cases kvs with
    | nil => exact absurd rfl hne
    | cons kv t =>
      rcases kv with ⟨k, v⟩
      have hesc := escapeChars_length_ge k.data
      cases t with
      | nil =>
        have hlen3 := dumpsM_single_length k v
        have h1 := (ih M (by omega)).1 v (rbrace :: rest) (by omega) ⟨by decide, by decide⟩
        rw [show dumpsM [(k, v)] ++ rbrace :: rest
            = '"' :: (escapeChars k.data
                ++ '"' :: (':' :: ' ' :: (dumpsV v ++ rbrace :: rest))) by
          rw [dumpsM]; simp]
        rw [parseMembers_step, if_pos rfl]
        rw [parseStrAux_escape k.data _ _
          (by simp only [List.length_append, List.length_cons]; omega)]
        show (match parseJ M (dumpsV v ++ rbrace :: rest) with
          | Option.none => Option.none
          | Option.some (v2, r3) =>
            match r3 with
            | [] => Option.none
            | c :: r4 =>
              if c = rbrace then Option.some ([(String.mk k.data, v2)], r4)
              else if c = ',' then
                match r4 with
                | ' ' :: r5 => (parseMembers M r5).map
                    (fun p : List (String × PyVal) × List Char =>
                      ((String.mk k.data, v2) :: p.1, p.2))
                | _ => Option.none
              else Option.none) = _
        rw [h1]
        show (if rbrace = rbrace then Option.some ([(String.mk k.data, v)], rest)
          else _) = _
        rw [if_pos rfl, String.mk_data]
      | cons kv2 t2 =>
        have hvpos := dumpsV_length_pos v
        have hlen3 := dumpsM_cons₂_length k v kv2 t2
        have h1 := (ih M (by omega)).1 v
          (',' :: ' ' :: (dumpsM (kv2 :: t2) ++ rbrace :: rest)) (by omega)
          ⟨by decide, by decide⟩
        have h2 := (ih M (by omega)).2.2 (kv2 :: t2) rest (by simp) (by omega)
        rw [show dumpsM ((k, v) :: kv2 :: t2) ++ rbrace :: rest
            = '"' :: (escapeChars k.data
                ++ '"' :: (':' :: ' ' :: (dumpsV v
                  ++ ',' :: ' ' :: (dumpsM (kv2 :: t2) ++ rbrace :: rest)))) by
          rw [dumpsM]; simp]
        rw [parseMembers_step, if_pos rfl]
        rw [parseStrAux_escape k.data _ _
          (by simp only [List.length_append, List.length_cons]; omega)]
        show (match parseJ M (dumpsV v ++ ',' :: ' ' :: (dumpsM (kv2 :: t2) ++ rbrace :: rest)) with
          | Option.none => Option.none
          | Option.some (v2, r3) =>
            match r3 with
            | [] => Option.none
            | c :: r4 =>
              if c = rbrace then Option.some ([(String.mk k.data, v2)], r4)
              else if c = ',' then
                match r4 with
                | ' ' :: r5 => (parseMembers M r5).map
                    (fun p : List (String × PyVal) × List Char =>
                      ((String.mk k.data, v2) :: p.1, p.2))
                | _ => Option.none
              else Option.none) = _
        rw [h1]
        show (if (',' : Char) = rbrace then Option.some ([(String.mk k.data, v)], ' ' :: (dumpsM (kv2 :: t2) ++ rbrace :: rest))
          else if (',' : Char) = ',' then
            match ' ' :: (dumpsM (kv2 :: t2) ++ rbrace :: rest) with
            | ' ' :: r5 => (parseMembers M r5).map (fun p => ((String.mk k.data, v) :: p.1, p.2))
            | _ => Option.none
          else Option.none) = _
        rw [if_neg (by decide), if_pos rfl]
        show (parseMembers M (dumpsM (kv2 :: t2) ++ rbrace :: rest)).map
            (fun p => ((String.mk k.data, v) :: p.1, p.2)) = _
        rw [h2, String.mk_data]
        rfl

theorem jsonLoads_pyDumps (v : PyVal) : jsonLoads (pyDumps v) = Option.some v := by
  have h := (parse_dumps ((dumpsV v).length + 1)).1 v [] (by omega) trivial
  rw [List.append_nil] at h
  rw [jsonLoads]
  rw [show (pyDumps v).data = dumpsV v from rfl, h]

/-- Model of `DatabaseManager._determine_attribute_type` (ai.py:333-344):
`bool` before `int` (Python bools are ints), then `float`, then
`dict`/`list`, everything else `"text"`. -/
def determine_attribute_type : PyVal → String
  | PyVal.bool _ => "boolean"
  | PyVal.int _ => "integer"
  | PyVal.float _ => "float"
  | PyVal.dict _ => "json"
  | PyVal.list _ => "json"
  | _ => "text"

/-- The serialized text stored for an attribute value (ai.py:319 and 536):
`json.dumps(value) if not isinstance(value, str) else value`. -/
def attrValueStr : PyVal → String
  | PyVal.str s => s
  | v => pyDumps v

/-- Python `str.lower()` restricted to ASCII, as used for the boolean tag. -/
def strLower (s : String) : String := String.mk (s.data.map Char.toLower)

/-- Model of `DatabaseManager._parse_attribute_value` (ai.py:395-409).
`Option.none` models an uncaught exception (`int()`/`float()` raising
`ValueError`); the `json` branch falls back to the raw text on parse
failure, and the boolean branch compares the lowercased text to "true". -/
def parse_attribute_value (value_str : String) (attr_type : String) : Option PyVal :=
  if attr_type = "json" then
    match jsonLoads value_str with
    | Option.some v => Option.some v
    | Option.none => Option.some (PyVal.str value_str)
  else if attr_type = "boolean" then
    Option.some (PyVal.bool (strLower value_str = "true"))
  else if attr_type = "integer" then
    (parsePyInt value_str).map PyVal.int
  else if attr_type = "float" then
    (parsePyFloat value_str).map PyVal.float
  else Option.some (PyVal.str value_str)

/-- C1 witness input evaluates: a dict round-trips. -/
theorem codec_check :
    parse_attribute_value (attrValueStr (PyVal.dict [("a", PyVal.int 5)]))
      (determine_attribute_type (PyVal.dict [("a", PyVal.int 5)]))
      = Option.some (PyVal.dict [("a", PyVal.int 5)]) := by rfl

/-- C1: for every attribute value whose kind is one of the five supported
tags (boolean, integer, float, text/string, json mapping-or-sequence —
i.e. every modelled value except `None`, which tags as "text" but is not
one of the five kinds), encoding it with the type tag chosen by
`_determine_attribute_type` and the serialization `add_facility` performs
(`json.dumps` for non-strings, identity for strings) and then decoding the
(serialized_text, tag) pair via `_parse_attribute_value` returns the
original value (for json values, the parsed structure equals the original
tree, keys in order). -/
theorem c1_attribute_codec_round_trip (v : PyVal) (h : v ≠ PyVal.none) :
    parse_attribute_value (attrValueStr v) (determine_attribute_type v) = Option.some v := by
  cases v with
  | none => exact absurd rfl h
  | bool b => cases b <;> rfl
  | int n =>
    show parse_attribute_value (pyDumps (PyVal.int n)) "integer" = _
    rw [parse_attribute_value, if_neg (by decide), if_neg (by decide), if_pos rfl]
    rw [show pyDumps (PyVal.int n) = String.mk (intRepr n) from rfl, parsePyInt_intRepr]
    rfl
  | float f =>
    show parse_attribute_value (pyDumps (PyVal.float f)) "float" = _
    rw [parse_attribute_value, if_neg (by decide), if_neg (by decide), if_neg (by decide),
      if_pos rfl]
    rw [show pyDumps (PyVal.float f) = String.mk (floatRepr f) from rfl, parsePyFloat_floatRepr]
    rfl
  | str s =>
    show parse_attribute_value s "text" = _
    rw [parse_attribute_value, if_neg (by decide), if_neg (by decide), if_neg (by decide),
      if_neg (by decide)]
  | list xs =>
    show parse_attribute_value (pyDumps (PyVal.list xs)) "json" = _
    rw [parse_attribute_value, if_pos rfl, jsonLoads_pyDumps]
  | dict kvs =>
    show parse_attribute_value (pyDumps (PyVal.dict kvs)) "json" = _
    rw [parse_attribute_value, if_pos rfl, jsonLoads_pyDumps]

/-- C1 witness: the round trip evaluated at a concrete json value. -/
theorem c1_attribute_codec_round_trip_witness :
    PyVal.dict [("a", PyVal.int 5), ("b", PyVal.list [PyVal.bool true, PyVal.none])] ≠ PyVal.none
    ∧ parse_attribute_value
        (attrValueStr (PyVal.dict [("a", PyVal.int 5),
          ("b", PyVal.list [PyVal.bool true, PyVal.none])]))
        (determine_attribute_type (PyVal.dict [("a", PyVal.int 5),
          ("b", PyVal.list [PyVal.bool true, PyVal.none])]))
      = Option.some (PyVal.dict [("a", PyVal.int 5),
          ("b", PyVal.list [PyVal.bool true, PyVal.none])]) :=
  ⟨fun h => PyVal.noConfusion h,
   c1_attribute_codec_round_trip _ (fun h => PyVal.noConfusion h)⟩

/-- Row of the `facilities` table (ai.py:208-221).  The `created_at` /
`updated_at` timestamp columns are elided: no claim observes them. -/
structure FacilityRow where
  id : String
  name : String
  facility_type : String
  address : String
  latitude : PFloat
  longitude : PFloat
  rating : Option PFloat
  phone : Option String
deriving DecidableEq

/-- Row of `facility_services` (ai.py:224-232); the AUTOINCREMENT surrogate id
is elided (never read). -/
structure ServiceRow where
  facility_id : String
  service_name : String
deriving DecidableEq

/-- Row of `facility_attributes` (ai.py:235-245); surrogate id elided. -/
structure AttrRow where
  facility_id : String
  attribute_key : String
  attribute_value : String
  attribute_type : String
deriving DecidableEq

/-- The persisted SQLite state: the three tables. -/
structure DB where
  facilities : List FacilityRow
  services : List ServiceRow
  attributes : List AttrRow
deriving DecidableEq

/-- The `INSERT INTO facility_services` loop (ai.py:306-310): each insert
fails with `IntegrityError` when the `UNIQUE(facility_id, service_name)`
constraint is violated, aborting the transaction. -/
def insertServiceRows (fid : String) : List ServiceRow → List String → Except Unit (List ServiceRow)
  | table, [] => Except.ok table
  | table, s :: rest =>
    if table.any (fun r => r.facility_id == fid && r.service_name == s) then Except.error ()
    else insertServiceRows fid (table ++ [⟨fid, s⟩]) rest

/-- The `INSERT INTO facility_attributes` loop (ai.py:316-324), with the
`UNIQUE(facility_id, attribute_key)` constraint. -/
def insertAttrRows (fid : String) : List AttrRow → List (String × PyVal) → Except Unit (List AttrRow)
  | table, [] => Except.ok table
  | table, (k, v) :: rest =>
    if table.any (fun r => r.facility_id == fid && r.attribute_key == k) then Except.error ()
    else insertAttrRows fid
      (table ++ [⟨fid, k, attrValueStr v, determine_attribute_type v⟩]) rest

/-- Model of `DatabaseManager.add_facility` (ai.py:260-331) together with the
transaction semantics of `get_connection` (ai.py:187-200): all statements run
against the open transaction; on any exception the transaction is rolled back
(the pre-call state is returned unchanged) and `add_facility` returns False;
otherwise the commit makes all writes visible and it returns True. -/
def add_facility (db : DB) (facility_id name facility_type address : String)
    (latitude longitude : PFloat) (services : List String) (rating : Option PFloat)
    (phone : Option String) (attributes : List (String × PyVal)) : Bool × DB :=
  let row : FacilityRow :=
    ⟨facility_id, name, facility_type, address, latitude, longitude, rating, phone⟩
  let fac1 := db.facilities.filter (fun r => !(r.id == facility_id)) ++ [row]
  let svc0 := db.services.filter (fun r => !(r.facility_id == facility_id))
  match insertServiceRows facility_id svc0 services with
  | Except.error _ => (false, db)
  | Except.ok svc1 =>
    let attr0 := db.attributes.filter (fun r => !(r.facility_id == facility_id))
    match insertAttrRows facility_id attr0 attributes with
    | Except.error _ => (false, db)
    | Except.ok attr1 => (true, ⟨fac1, svc1, attr1⟩)

/-- The service names stored for a facility (direct table lookup). -/
def servicesOf (db : DB) (fid : String) : List String :=
  (db.services.filter (fun r => r.facility_id == fid)).map (fun r => r.service_name)

/-- The attribute rows stored for a facility (direct table lookup). -/
def attrRowsOf (db : DB) (fid : String) : List AttrRow :=
  db.attributes.filter (fun r => r.facility_id == fid)

/-- The facility row stored under an id. -/
def facilityRowOf (db : DB) (fid : String) : Option FacilityRow :=
  db.facilities.find? (fun r => r.id == fid)

/-- The denormalized view `get_facility` returns (core fields + lexicographic
service list + decoded attribute pairs). -/
structure Facility where
  id : String
  name : String
  facility_type : String
  address : String
  latitude : PFloat
  longitude : PFloat
  rating : Option PFloat
  phone : Option String
  services : List String
  attributes : List (String × PyVal)

/-- Decoding of a facility's attribute rows (ai.py:382-385); a raised
`ValueError` from a numeric parse aborts the whole read. -/
def parseAttrRows (rows : List AttrRow) : Option (List (String × PyVal)) :=
  rows.mapM (fun r => (parse_attribute_value r.attribute_value r.attribute_type).map
    (fun v => (r.attribute_key, v)))

/-- Model of `DatabaseManager.get_facility` (ai.py:346-393): row lookup,
services `ORDER BY service_name`, attributes decoded; any exception inside
(such as a numeric attribute body failing to parse) is caught and turned
into a `None` return. -/
def get_facility (db : DB) (fid : String) : Option Facility :=
  match db.facilities.find? (fun r => r.id == fid) with
  | Option.none => Option.none
  | Option.some row =>
    match parseAttrRows (attrRowsOf db fid) with
    | Option.none => Option.none
    | Option.some attrs =>
      Option.some ⟨row.id, row.name, row.facility_type, row.address, row.latitude,
        row.longitude, row.rating, row.phone,
        List.insertionSort (fun a b => a ≤ b) (servicesOf db fid), attrs⟩

/-- Model of `DatabaseManager.update_facility_attribute` (ai.py:514-555):
`INSERT OR REPLACE` of the single attribute row.  Because the connection
never enables `PRAGMA foreign_keys`, the declared foreign key is not
checked: the insert succeeds even when no facility has this id (the
`UPDATE facilities SET updated_at ...` then simply matches zero rows), and
the function returns True. -/
def update_facility_attribute (db : DB) (fid key : String) (value : PyVal) : Bool × DB :=
  (true, { db with attributes :=
    db.attributes.filter (fun r => !(r.facility_id == fid && r.attribute_key == key))
      ++ [⟨fid, key, attrValueStr value, determine_attribute_type value⟩] })

/-- Model of `DatabaseManager.delete_facility` (ai.py:557-567):
`DELETE FROM facilities WHERE id = ?`.  The declared `ON DELETE CASCADE`
foreign keys are inert (no `PRAGMA foreign_keys = ON` anywhere), so the
facility's service and attribute rows are left behind. -/
def delete_facility (db : DB) (fid : String) : Bool × DB :=
  (true, { db with facilities := db.facilities.filter (fun r => !(r.id == fid)) })

/-- Model of `DatabaseManager.get_all_facility_ids` (ai.py:569-578). -/
def get_all_facility_ids (db : DB) : List String := db.facilities.map (fun r => r.id)

theorem insertServiceRows_ok (fid : String) : ∀ (l : List String) table table',
    insertServiceRows fid table l = Except.ok table' →
    table' = table ++ l.map (fun s => ServiceRow.mk fid s) := by
  intro l
  induction l with
  | nil =>
    intro table table' h
    rw [insertServiceRows] at h
    cases h
    simp
  | cons s rest ih =>
    intro table table' h
    rw [insertServiceRows] at h
    by_cases hc : table.any (fun r => r.facility_id == fid && r.service_name == s)
    · rw [if_pos hc] at h
      cases h
    · rw [if_neg hc] at h
      have := ih _ _ h
      simp [this]

theorem insertAttrRows_ok (fid : String) : ∀ (l : List (String × PyVal)) table table',
    insertAttrRows fid table l = Except.ok table' →
    table' = table ++ l.map (fun kv =>
      AttrRow.mk fid kv.1 (attrValueStr kv.2) (determine_attribute_type kv.2)) := by
  intro l
  induction l with
  | nil =>
    intro table table' h
    rw [insertAttrRows] at h
    cases h
    simp
  | cons kv rest ih =>
    intro table table' h
    rcases kv with ⟨k, v⟩
    rw [insertAttrRows] at h
    by_cases hc : table.any (fun r => r.facility_id == fid && r.attribute_key == k)
    · rw [if_pos hc] at h
      cases h
    · rw [if_neg hc] at h
      have := ih _ _ h
      simp [this]

theorem filter_filter_none {α : Type} (p q : α → Bool) (h : ∀ a, q a = true → p a = false) :
    ∀ l : List α, (l.filter p).filter q = [] := by
  intro l
  induction l with
  | nil => rfl
  | cons a t ih =>
    by_cases hp : p a = true
    · have hq : q a = false := by
        cases hqa : q a with
        | false => rfl
        | true => rw [h a hqa] at hp; cases hp
      simp [List.filter, hp, hq, ih]
    · simp only [Bool.not_eq_true] at hp
      simp [List.filter, hp, ih]

/-- The working state produced by a successful `add_facility`. -/
theorem add_facility_ok (db : DB) (fid nm ft addr : String) (la lo : PFloat)
    (svcs : List String) (rat : Option PFloat) (ph : Option String)
    (attrs : List (String × PyVal))
    (h : (add_facility db fid nm ft addr la lo svcs rat ph attrs).1 = true) :
    servicesOf (add_facility db fid nm ft addr la lo svcs rat ph attrs).2 fid = svcs ∧
    attrRowsOf (add_facility db fid nm ft addr la lo svcs rat ph attrs).2 fid
      = attrs.map (fun kv =>
          AttrRow.mk fid kv.1 (attrValueStr kv.2) (determine_attribute_type kv.2)) ∧
    facilityRowOf (add_facility db fid nm ft addr la lo svcs rat ph attrs).2 fid
      = Option.some ⟨fid, nm, ft, addr, la, lo, rat, ph⟩ := by
  rw [add_facility] at h ⊢
  cases h1 : insertServiceRows fid
      (db.services.filter (fun r => !(r.facility_id == fid))) svcs with
  | error e =>
    rw [h1] at h
    dsimp only at h
    exact Bool.noConfusion h
  | ok svc1 =>
    rw [h1] at h
    dsimp only at h ⊢
    cases h2 : insertAttrRows fid
        (db.attributes.filter (fun r => !(r.facility_id == fid))) attrs with
    | error e =>
      rw [h2] at h
      dsimp only at h
      exact Bool.noConfusion h
    | ok attr1 =>
      rw [h2] at h
      dsimp only
      have hs := insertServiceRows_ok fid svcs _ _ h1
      have ha := insertAttrRows_ok fid attrs _ _ h2
      refine ⟨?_, ?_, ?_⟩
      · rw [servicesOf]
        dsimp only
        rw [hs, List.filter_append,
          filter_filter_none _ _ (by intro a ha2; simp at ha2 ⊢; exact ha2) db.services,
          List.nil_append]
        rw [List.filter_eq_self.mpr (by intro a ha2; simp at ha2; obtain ⟨s, -, rfl⟩ := ha2; simp)]
        rw [List.map_map]
        rw [show ((fun (r : ServiceRow) => r.service_name)
            ∘ fun s => ({ facility_id := fid, service_name := s } : ServiceRow))
          = fun s => s from rfl]
        exact List.map_id svcs
      · rw [attrRowsOf]
        dsimp only
        rw [ha, List.filter_append,
          filter_filter_none _ _ (by intro a ha2; simp at ha2 ⊢; exact ha2) db.attributes,
          List.nil_append]
        rw [List.filter_eq_self.mpr
          (by intro a ha2; simp at ha2; obtain ⟨k, v, -, rfl⟩ := ha2; simp)]
      · rw [facilityRowOf]
        dsimp only
        rw [List.find?_append,
          List.find?_eq_none.mpr (by intro x hx; simp at hx ⊢; exact hx.2)]
        simp [List.find?]

/-- A failed `add_facility` returns False with the state unchanged. -/
theorem add_facility_fail (db : DB) (fid nm ft addr : String) (la lo : PFloat)
    (svcs : List String) (rat : Option PFloat) (ph : Option String)
    (attrs : List (String × PyVal))
    (h : (add_facility db fid nm ft addr la lo svcs rat ph attrs).1 = false) :
    add_facility db fid nm ft addr la lo svcs rat ph attrs = (false, db) := by
  rw [add_facility] at h ⊢
  cases h1 : insertServiceRows fid
      (db.services.filter (fun r => !(r.facility_id == fid))) svcs with
  | error e => rfl
  | ok svc1 =>
    rw [h1] at h
    dsimp only at h ⊢
    cases h2 : insertAttrRows fid
        (db.attributes.filter (fun r => !(r.facility_id == fid))) attrs with
    | error e => rfl
    | ok attr1 =>
      rw [h2] at h
      dsimp only at h
      exact Bool.noConfusion h

/-- C2: every `add_facility` call either persists all three writes together
(facility row upsert, the exact new service set, the exact new encoded
attribute set) and returns True, or returns False with the persisted state
exactly as it was before the call — a state with some but not all of the
new services/attributes is never the result. -/
theorem c2_add_facility_atomic (db : DB) (fid nm ft addr : String) (la lo : PFloat)
    (svcs : List String) (rat : Option PFloat) (ph : Option String)
    (attrs : List (String × PyVal)) :
    add_facility db fid nm ft addr la lo svcs rat ph attrs = (false, db) ∨
    ((add_facility db fid nm ft addr la lo svcs rat ph attrs).1 = true ∧
     servicesOf (add_facility db fid nm ft addr la lo svcs rat ph attrs).2 fid = svcs ∧
     attrRowsOf (add_facility db fid nm ft addr la lo svcs rat ph attrs).2 fid
       = attrs.map (fun kv =>
           AttrRow.mk fid kv.1 (attrValueStr kv.2) (determine_attribute_type kv.2)) ∧
     facilityRowOf (add_facility db fid nm ft addr la lo svcs rat ph attrs).2 fid
       = Option.some ⟨fid, nm, ft, addr, la, lo, rat, ph⟩) := by
  rcases Bool.eq_false_or_eq_true (add_facility db fid nm ft addr la lo svcs rat ph attrs).1
    with hb | hb
  · exact Or.inr ⟨hb, add_facility_ok db fid nm ft addr la lo svcs rat ph attrs hb⟩
  · exact Or.inl (add_facility_fail db fid nm ft addr la lo svcs rat ph attrs hb)

/-- C3: a successful re-add of an existing facility id leaves the facility
holding exactly the newly supplied services and attribute keys — nothing
from any previous write survives. -/
theorem c3_readd_replaces (db : DB) (fid nm ft addr : String) (la lo : PFloat)
    (svcs : List String) (rat : Option PFloat) (ph : Option String)
    (attrs : List (String × PyVal))
    (h : (add_facility db fid nm ft addr la lo svcs rat ph attrs).1 = true) :
    servicesOf (add_facility db fid nm ft addr la lo svcs rat ph attrs).2 fid = svcs ∧
    (attrRowsOf (add_facility db fid nm ft addr la lo svcs rat ph attrs).2 fid).map
        (fun r => r.attribute_key) = attrs.map Prod.fst := by
  obtain ⟨h1, h2, -⟩ := add_facility_ok db fid nm ft addr la lo svcs rat ph attrs h
  refine ⟨h1, ?_⟩
  rw [h2, List.map_map]
  rfl

theorem insertServiceRows_mem_err (fid : String) : ∀ (l : List String) table,
    (∃ s ∈ l, table.any (fun r => r.facility_id == fid && r.service_name == s) = true) →
    insertServiceRows fid table l = Except.error () := by
  intro l
  induction l with
  | nil =>
    intro table h
    obtain ⟨s, hs, -⟩ := h
    cases hs
  | cons s0 rest ih =>
    intro table h
    rw [insertServiceRows]
    by_cases hc : table.any (fun r => r.facility_id == fid && r.service_name == s0) = true
    · rw [if_pos hc]
    · rw [if_neg hc]
      obtain ⟨s, hs, hany⟩ := h
      rcases List.mem_cons.mp hs with rfl | hs2
      · exact absurd hany hc
      · refine ih _ ⟨s, hs2, ?_⟩
        rw [List.any_append]
        rw [hany]
        rfl

theorem insertServiceRows_dup (fid : String) : ∀ (l : List String) table,
    ¬ l.Nodup → insertServiceRows fid table l = Except.error () := by
  intro l
  induction l with
  | nil =>
    intro table h
    exact absurd List.nodup_nil h
  | cons s0 rest ih =>
    intro table h
    rw [List.nodup_cons] at h
    rw [insertServiceRows]
    by_cases hc : table.any (fun r => r.facility_id == fid && r.service_name == s0) = true
    · rw [if_pos hc]
    · rw [if_neg hc]
      by_cases hmem : s0 ∈ rest
      · refine insertServiceRows_mem_err fid rest _ ⟨s0, hmem, ?_⟩
        rw [List.any_append]
        simp [List.any_cons]
      · exact ih _ (fun hnd => h ⟨hmem, hnd⟩)

/-- C10: an `add_facility` call whose services list repeats a service name
trips the `UNIQUE(facility_id, service_name)` constraint inside the
transaction: the call returns False and no part of the write survives —
the returned state is exactly the pre-call state, even though the facility
row insert had already executed inside the transaction. -/
theorem c10_duplicate_service_aborts (db : DB) (fid nm ft addr : String) (la lo : PFloat)
    (svcs : List String) (rat : Option PFloat) (ph : Option String)
    (attrs : List (String × PyVal)) (h : ¬ svcs.Nodup) :
    add_facility db fid nm ft addr la lo svcs rat ph attrs = (false, db) := by
  rw [add_facility, insertServiceRows_dup fid svcs _ h]

/-- C10 witness: a duplicated service name on an empty store rolls back. -/
theorem c10_duplicate_service_aborts_witness :
    ¬ (["x-ray", "x-ray"] : List String).Nodup ∧
    add_facility ⟨[], [], []⟩ "f1" "General" "hospital" "1 Main St"
        ⟨false, 27, [7]⟩ ⟨false, 97, [4]⟩ ["x-ray", "x-ray"] Option.none Option.none []
      = (false, ⟨[], [], []⟩) :=
  ⟨by decide,
   c10_duplicate_service_aborts ⟨[], [], []⟩ "f1" "General" "hospital" "1 Main St"
     ⟨false, 27, [7]⟩ ⟨false, 97, [4]⟩ ["x-ray", "x-ray"] Option.none Option.none []
     (by decide)⟩

/-- C3 witness: re-adding `f1` (which already holds a service and an
attribute) succeeds and leaves exactly the new service and attribute key. -/
theorem c3_readd_replaces_witness :
    (add_facility
        ⟨[⟨"f1", "Old", "clinic", "2 Oak Ave", ⟨false, 1, [5]⟩, ⟨false, 2, [5]⟩,
            Option.none, Option.none⟩],
         [⟨"f1", "dialysis"⟩],
         [⟨"f1", "old_key", "1", "integer"⟩]⟩
        "f1" "New" "hospital" "3 Elm St" ⟨false, 4, [5]⟩ ⟨false, 6, [5]⟩
        ["cardiology"] Option.none Option.none [("wheelchair", PyVal.bool true)]).1 = true ∧
    servicesOf (add_facility
        ⟨[⟨"f1", "Old", "clinic", "2 Oak Ave", ⟨false, 1, [5]⟩, ⟨false, 2, [5]⟩,
            Option.none, Option.none⟩],
         [⟨"f1", "dialysis"⟩],
         [⟨"f1", "old_key", "1", "integer"⟩]⟩
        "f1" "New" "hospital" "3 Elm St" ⟨false, 4, [5]⟩ ⟨false, 6, [5]⟩
        ["cardiology"] Option.none Option.none [("wheelchair", PyVal.bool true)]).2 "f1"
      = ["cardiology"] ∧
    (attrRowsOf (add_facility
        ⟨[⟨"f1", "Old", "clinic", "2 Oak Ave", ⟨false, 1, [5]⟩, ⟨false, 2, [5]⟩,
            Option.none, Option.none⟩],
         [⟨"f1", "dialysis"⟩],
         [⟨"f1", "old_key", "1", "integer"⟩]⟩
        "f1" "New" "hospital" "3 Elm St" ⟨false, 4, [5]⟩ ⟨false, 6, [5]⟩
        ["cardiology"] Option.none Option.none [("wheelchair", PyVal.bool true)]).2 "f1").map
        (fun r => r.attribute_key)
      = ["wheelchair"] :=
  ⟨by decide,
   c3_readd_replaces
     ⟨[⟨"f1", "Old", "clinic", "2 Oak Ave", ⟨false, 1, [5]⟩, ⟨false, 2, [5]⟩,
         Option.none, Option.none⟩],
      [⟨"f1", "dialysis"⟩],
      [⟨"f1", "old_key", "1", "integer"⟩]⟩
     "f1" "New" "hospital" "3 Elm St" ⟨false, 4, [5]⟩ ⟨false, 6, [5]⟩
     ["cardiology"] Option.none Option.none [("wheelchair", PyVal.bool true)] (by decide)⟩

theorem mapM_eq_none {α β : Type} (f : α → Option β) :
    ∀ (l : List α) (x : α), x ∈ l → f x = Option.none → l.mapM f = Option.none := by
  intro l
  induction l with
  | nil =>
    intro x hx
    cases hx
  | cons a t ih =>
    intro x hx hfx
    rw [List.mapM_cons]
    rcases List.mem_cons.mp hx with rfl | hx2
    · rw [hfx]
      rfl
    · cases hfa : f a with
      | none => rfl
      | some b =>
        rw [ih x hx2 hfx]
        rfl

/-- C9: a stored attribute row whose type tag is integer or float but whose
text body does not parse as a number makes `_parse_attribute_value` raise
(modelled `Option.none`), and the failure propagates out of the attribute
loop of `get_facility`: the read reports failure (`None`) instead of
returning a facility with the value silently dropped or kept raw. -/
theorem c9_numeric_parse_failure_surfaces (db : DB) (fid : String) (row : AttrRow)
    (hmem : row ∈ db.attributes) (hfid : row.facility_id = fid)
    (hbad : (row.attribute_type = "integer" ∧ parsePyInt row.attribute_value = Option.none) ∨
            (row.attribute_type = "float" ∧ parsePyFloat row.attribute_value = Option.none)) :
    parse_attribute_value row.attribute_value row.attribute_type = Option.none ∧
    get_facility db fid = Option.none := by
  have hparse : parse_attribute_value row.attribute_value row.attribute_type = Option.none := by
    rcases hbad with ⟨htag, hp⟩ | ⟨htag, hp⟩
    · rw [parse_attribute_value, htag, if_neg (by decide), if_neg (by decide), if_pos rfl, hp]
      rfl
    · rw [parse_attribute_value, htag, if_neg (by decide), if_neg (by decide),
        if_neg (by decide), if_pos rfl, hp]
      rfl
  refine ⟨hparse, ?_⟩
  rw [get_facility]
  cases hfind : db.facilities.find? (fun r => r.id == fid) with
  | none => rfl
  | some row0 =>
    have hrowmem : row ∈ attrRowsOf db fid := by
      rw [attrRowsOf, List.mem_filter]
      exact ⟨hmem, by rw [hfid]; simp⟩
    have : parseAttrRows (attrRowsOf db fid) = Option.none := by
      rw [parseAttrRows]
      refine mapM_eq_none _ _ row hrowmem ?_
      rw [hparse]
      rfl
    rw [this]

/-- C9 witness: a facility whose only attribute has tag "integer" and body
"abc"; the read path returns None. -/
theorem c9_numeric_parse_failure_surfaces_witness :
    (⟨"f1", "cap", "abc", "integer"⟩ : AttrRow)
        ∈ (⟨[⟨"f1", "X", "clinic", "a", ⟨false, 0, [0]⟩, ⟨false, 0, [0]⟩,
              Option.none, Option.none⟩],
            [], [⟨"f1", "cap", "abc", "integer"⟩]⟩ : DB).attributes ∧
    (⟨"f1", "cap", "abc", "integer"⟩ : AttrRow).facility_id = "f1" ∧
    (parsePyInt "abc" = Option.none) ∧
    parse_attribute_value "abc" "integer" = Option.none ∧
    get_facility
        ⟨[⟨"f1", "X", "clinic", "a", ⟨false, 0, [0]⟩, ⟨false, 0, [0]⟩,
            Option.none, Option.none⟩],
         [], [⟨"f1", "cap", "abc", "integer"⟩]⟩ "f1" = Option.none := by
  refine ⟨by decide, rfl, by decide, ?_⟩
  exact c9_numeric_parse_failure_surfaces
    ⟨[⟨"f1", "X", "clinic", "a", ⟨false, 0, [0]⟩, ⟨false, 0, [0]⟩, Option.none, Option.none⟩],
     [], [⟨"f1", "cap", "abc", "integer"⟩]⟩
    "f1" ⟨"f1", "cap", "abc", "integer"⟩ (by decide) rfl (Or.inl ⟨rfl, by decide⟩)

/-- C4: the code declares `ON DELETE CASCADE` but never enables SQLite
foreign-key enforcement, so `delete_facility` removes only the facility row:
the subsequent `get_facility` is not-found, but the facility's service and
attribute rows survive as orphans — direct lookups are not empty, contrary
to the claim.  Evaluated at a concrete store. -/
theorem c4_delete_leaves_orphans :
    (delete_facility
        ⟨[⟨"f1", "X", "clinic", "a", ⟨false, 0, [0]⟩, ⟨false, 0, [0]⟩,
            Option.none, Option.none⟩],
         [⟨"f1", "cardiology"⟩], [⟨"f1", "k", "v", "text"⟩]⟩ "f1").1 = true ∧
    get_facility (delete_facility
        ⟨[⟨"f1", "X", "clinic", "a", ⟨false, 0, [0]⟩, ⟨false, 0, [0]⟩,
            Option.none, Option.none⟩],
         [⟨"f1", "cardiology"⟩], [⟨"f1", "k", "v", "text"⟩]⟩ "f1").2 "f1" = Option.none ∧
    servicesOf (delete_facility
        ⟨[⟨"f1", "X", "clinic", "a", ⟨false, 0, [0]⟩, ⟨false, 0, [0]⟩,
            Option.none, Option.none⟩],
         [⟨"f1", "cardiology"⟩], [⟨"f1", "k", "v", "text"⟩]⟩ "f1").2 "f1" = ["cardiology"] ∧
    attrRowsOf (delete_facility
        ⟨[⟨"f1", "X", "clinic", "a", ⟨false, 0, [0]⟩, ⟨false, 0, [0]⟩,
            Option.none, Option.none⟩],
         [⟨"f1", "cardiology"⟩], [⟨"f1", "k", "v", "text"⟩]⟩ "f1").2 "f1"
      = [⟨"f1", "k", "v", "text"⟩] :=
  ⟨rfl, rfl, rfl, rfl⟩

/-- C8: `update_facility_attribute` on an id absent from the store reports
success (True) and persists an orphaned attribute row — it performs no
facility-existence check, and with foreign keys unenforced the insert goes
through; no NotFound failure is produced.  Evaluated on the empty store. -/
theorem c8_update_absent_reports_success :
    facilityRowOf (⟨[], [], []⟩ : DB) "ghost" = Option.none ∧
    update_facility_attribute ⟨[], [], []⟩ "ghost" "k" (PyVal.str "v")
      = (true, ⟨[], [], [⟨"ghost", "k", "v", "text"⟩]⟩) :=
  ⟨rfl, rfl⟩

/-- `math.radians` (degrees to radians). -/
noncomputable def radians (x : ℝ) : ℝ := x * Real.pi / 180

/-- The haversine intermediate `a` of `_calculate_distance` (ai.py:508-510),
exactly as computed: `sin²(Δφ/2) + cos φ₁ · cos φ₂ · sin²(Δλ/2)`. -/
noncomputable def haversine_a (lat1 lon1 lat2 lon2 : ℝ) : ℝ :=
  Real.sin (radians (lat2 - lat1) / 2) ^ 2 +
    Real.cos (radians lat1) * Real.cos (radians lat2) *
      Real.sin (radians (lon2 - lon1) / 2) ^ 2

/-- Model of `DatabaseManager._calculate_distance` (ai.py:503-512) over exact
reals: `R * c` with `R = 3959` miles and `c = 2 * asin(sqrt a)`.  The code
performs no clamping of `a`. -/
noncomputable def calculate_distance (lat1 lon1 lat2 lon2 : ℝ) : ℝ :=
  3959 * (2 * Real.arcsin (Real.sqrt (haversine_a lat1 lon1 lat2 lon2)))

theorem sin_sq_half_eq (x : ℝ) : Real.sin (x / 2) ^ 2 = (1 - Real.cos x) / 2 := by
  have h := Real.cos_two_mul (x / 2)
  have h2 := Real.cos_sq' (x / 2)
  have hx : 2 * (x / 2) = x := by ring
  rw [hx] at h
  nlinarith [h, h2]

/-- Supporting analysis: in exact real arithmetic the haversine intermediate
lies in [0,1] for all valid coordinates and the distance is non-negative and
bounded.  Hence any excursion of the computed intermediate above 1 at run
time is purely a floating-point rounding artifact — the artifact the spec's
clamp requirement exists to absorb. -/
theorem haversine_a_exact_bounds (lat1 lon1 lat2 lon2 : ℝ)
    (h1 : -90 ≤ lat1 ∧ lat1 ≤ 90) (h2 : -90 ≤ lat2 ∧ lat2 ≤ 90)
    (h3 : -180 ≤ lon1 ∧ lon1 ≤ 180) (h4 : -180 ≤ lon2 ∧ lon2 ≤ 180) :
    0 ≤ haversine_a lat1 lon1 lat2 lon2 ∧ haversine_a lat1 lon1 lat2 lon2 ≤ 1 ∧
    0 ≤ calculate_distance lat1 lon1 lat2 lon2 ∧
    calculate_distance lat1 lon1 lat2 lon2 ≤ 3959 * Real.pi := by
  have hpi := Real.pi_pos
  have hr1a : -(Real.pi / 2) ≤ radians lat1 := by
    rw [radians]
    nlinarith [mul_nonneg (by linarith [h1.1] : (0:ℝ) ≤ lat1 + 90) hpi.le]
  have hr1b : radians lat1 ≤ Real.pi / 2 := by
    rw [radians]
    nlinarith [mul_nonneg (by linarith [h1.2] : (0:ℝ) ≤ 90 - lat1) hpi.le]
  have hr2a : -(Real.pi / 2) ≤ radians lat2 := by
    rw [radians]
    nlinarith [mul_nonneg (by linarith [h2.1] : (0:ℝ) ≤ lat2 + 90) hpi.le]
  have hr2b : radians lat2 ≤ Real.pi / 2 := by
    rw [radians]
    nlinarith [mul_nonneg (by linarith [h2.2] : (0:ℝ) ≤ 90 - lat2) hpi.le]
  have hc1 : 0 ≤ Real.cos (radians lat1) := Real.cos_nonneg_of_mem_Icc ⟨hr1a, hr1b⟩
  have hc2 : 0 ≤ Real.cos (radians lat2) := Real.cos_nonneg_of_mem_Icc ⟨hr2a, hr2b⟩
  have ha0 : 0 ≤ haversine_a lat1 lon1 lat2 lon2 := by
    rw [haversine_a]
    have := sq_nonneg (Real.sin (radians (lat2 - lat1) / 2))
    have := sq_nonneg (Real.sin (radians (lon2 - lon1) / 2))
    nlinarith [mul_nonneg hc1 hc2]
  have ha1 : haversine_a lat1 lon1 lat2 lon2 ≤ 1 := by
    rw [haversine_a]
    have hrad : radians (lat2 - lat1) = radians lat2 - radians lat1 := by
      rw [radians, radians, radians]
      ring
    rw [hrad, sin_sq_half_eq]
    have hcos_sub := Real.cos_sub (radians lat2) (radians lat1)
    have hcos_add := Real.cos_add (radians lat1) (radians lat2)
    have hadd_le := Real.cos_le_one (radians lat1 + radians lat2)
    have hsin_le := Real.sin_sq_le_one (radians (lon2 - lon1) / 2)
    have hsin_nn := sq_nonneg (Real.sin (radians (lon2 - lon1) / 2))
    have hcc : 0 ≤ Real.cos (radians lat1) * Real.cos (radians lat2) := mul_nonneg hc1 hc2
    nlinarith [mul_le_mul_of_nonneg_left hsin_le hcc]
  have hsr : 0 ≤ Real.sqrt (haversine_a lat1 lon1 lat2 lon2) := Real.sqrt_nonneg _
  have harc0 : 0 ≤ Real.arcsin (Real.sqrt (haversine_a lat1 lon1 lat2 lon2)) :=
    Real.arcsin_nonneg.mpr hsr
  have harc1 : Real.arcsin (Real.sqrt (haversine_a lat1 lon1 lat2 lon2)) ≤ Real.pi / 2 :=
    Real.arcsin_le_pi_div_two _
  refine ⟨ha0, ha1, ?_, ?_⟩
  · rw [calculate_distance]
    nlinarith [harc0]
  · rw [calculate_distance]
    nlinarith [harc1]

/-- `math.sqrt`: raises `ValueError` (modelled `Option.none`) on negative
arguments. -/
noncomputable def mathSqrt (x : ℝ) : Option ℝ :=
  if 0 ≤ x then Option.some (Real.sqrt x) else Option.none

/-- `math.asin`: raises `ValueError: math domain error` (modelled
`Option.none`) outside [-1, 1]. -/
noncomputable def mathAsin (x : ℝ) : Option ℝ :=
  if -1 ≤ x ∧ x ≤ 1 then Option.some (Real.arcsin x) else Option.none

/-- The inverse-trig step of `_calculate_distance` (ai.py:511-512), applied
to whatever intermediate value `a` the preceding floating-point arithmetic
produced: `c = 2 * math.asin(math.sqrt(a)); return R * c` — the code passes
`a` through with no clamp. -/
noncomputable def distanceStep (a : ℝ) : Option ℝ :=
  match mathSqrt a with
  | Option.none => Option.none
  | Option.some s => (mathAsin s).map (fun c => 3959 * (2 * c))

/-- Modelled from the spec: the same step with the intermediate first
clamped into [0,1] ("clamp the haversine intermediate term into [0,1]
before the inverse trig step"), the guard ai.py omits. -/
noncomputable def distanceStepClamped (a : ℝ) : Option ℝ :=
  distanceStep (max 0 (min 1 a))

/-- C7: the claim (with the spec) requires the haversine intermediate to be
clamped into [0,1] before the inverse trig step so that no domain error can
occur and a non-negative finite distance is always returned.
`_calculate_distance` has no clamp: whenever the floating-point evaluation
of the intermediate overshoots 1 (which happens on real inputs — at valid
near-antipodal coordinates lat1=-69.23975597383304,
lon1=-51.19664267364169, lat2=69.23975597383354, lon2=128.8033573263582 the
double arithmetic yields a = 1.0000000000000004 and `math.asin` raises
`ValueError: math domain error`), the code's unclamped step fails where the
spec-mandated clamped step completes and returns the non-negative finite
antipodal distance 3959·π.  `haversine_a_exact_bounds` shows the overshoot
is purely a rounding artifact: in exact arithmetic the term never leaves
[0,1]. -/
theorem c7_missing_clamp_domain_error (a : ℝ) (h : 1 < a) :
    distanceStep a = Option.none ∧
    distanceStepClamped a = Option.some (3959 * Real.pi) := by
  have ha0 : (0 : ℝ) ≤ a := by linarith
  have hsq : 1 < Real.sqrt a := by
    rw [show (1 : ℝ) = Real.sqrt 1 by rw [Real.sqrt_one]]
    exact Real.sqrt_lt_sqrt (by norm_num) h
  constructor
  · rw [distanceStep, mathSqrt, if_pos ha0]
    show (mathAsin (Real.sqrt a)).map (fun c => 3959 * (2 * c)) = Option.none
    rw [mathAsin, if_neg (fun hc => absurd hc.2 (not_le.mpr hsq))]
    rfl
  · rw [distanceStepClamped, min_eq_left h.le, max_eq_right zero_le_one]
    rw [distanceStep, mathSqrt, if_pos zero_le_one, Real.sqrt_one]
    show (mathAsin 1).map (fun c => 3959 * (2 * c)) = Option.some (3959 * Real.pi)
    rw [mathAsin, if_pos ⟨by norm_num, le_refl 1⟩]
    rw [Option.map_some', Real.arcsin_one]
    rw [show 3959 * (2 * (Real.pi / 2)) = 3959 * Real.pi by ring]

/-- C7 witness: the divergence at the concretely observed overshoot value
1 + 2⁻⁵¹ (= 1.0000000000000004, the double the failing input produces). -/
theorem c7_missing_clamp_domain_error_witness :
    (1 : ℝ) < 2251799813685249 / 2251799813685248 ∧
    (distanceStep (2251799813685249 / 2251799813685248) = Option.none ∧
     distanceStepClamped (2251799813685249 / 2251799813685248)
       = Option.some (3959 * Real.pi)) :=
  ⟨by norm_num,
   c7_missing_clamp_domain_error (2251799813685249 / 2251799813685248) (by norm_num)⟩

/-- Bool prefix test on char lists (building block for LIKE matching). -/
def isPrefixB : List Char → List Char → Bool
  | [], _ => true
  | _ :: _, [] => false
  | p :: ps, c :: cs => p == c && isPrefixB ps cs

/-- Bool substring test on char lists. -/
def containsSubB : List Char → List Char → Bool
  | [], pat => pat.isEmpty
  | c :: cs, pat => isPrefixB pat (c :: cs) || containsSubB cs pat

/-- SQLite `LIKE '%pat%'`: substring match, case-insensitive over ASCII. -/
def likeContains (hay pat : String) : Bool :=
  containsSubB (hay.data.map Char.toLower) (pat.data.map Char.toLower)

/-- Python `str(value)` as used when binding an attribute filter into the
LIKE pattern (ai.py:468).  Container reprs are approximated by their JSON
text; no claim observes them. -/
def pyStr : PyVal → String
  | PyVal.none => "None"
  | PyVal.bool true => "True"
  | PyVal.bool false => "False"
  | PyVal.int n => String.mk (intRepr n)
  | PyVal.float f => String.mk (floatRepr f)
  | PyVal.str s => s
  | v => pyDumps v

/-- A Python float is falsy exactly when its value is 0.0. -/
def PFloat.isZero (f : PFloat) : Bool := f.ip == 0 && f.frac.all (fun d => d.val == 0)

/-- Truthiness of an optional float argument (`if latitude and longitude:`,
`if max_distance_miles and ...`): `None` and `0.0` are falsy. -/
def optPFTruthy : Option PFloat → Bool
  | Option.none => false
  | Option.some x => !x.isZero

/-- Truthiness of an optional string argument (`if facility_type:`):
`None` and `""` are falsy. -/
def optStrTruthy : Option String → Bool
  | Option.none => false
  | Option.some s => !(s == "")

/-- The criteria of `search_facilities` (ai.py:411-419). -/
structure SearchArgs where
  facility_type : Option String
  service : Option String
  min_rating : Option PFloat
  attribute_filters : List (String × PyVal)
  latitude : Option PFloat
  longitude : Option PFloat
  max_distance_miles : Option PFloat

/-- The WHERE clause built by `search_facilities` (ai.py:438-471), as a row
predicate: exact type match, service-substring EXISTS join, inclusive
rating threshold (NULL rating fails), and one EXISTS join per attribute
filter (key equality and LIKE-substring on the stored value).  The empty
attribute-filter mapping is falsy, which coincides with the empty
conjunction. -/
def rowMatches (db : DB) (args : SearchArgs) (row : FacilityRow) : Bool :=
  (match args.facility_type with
   | Option.some ft => if ft == "" then true else row.facility_type == ft
   | Option.none => true) &&
  (match args.service with
   | Option.some sv =>
     if sv == "" then true
     else db.services.any (fun r => r.facility_id == row.id && likeContains r.service_name sv)
   | Option.none => true) &&
  (match args.min_rating with
   | Option.some mr =>
     match row.rating with
     | Option.some rr => decide (mr.toRat ≤ rr.toRat)
     | Option.none => false
   | Option.none => true) &&
  (args.attribute_filters.all (fun kv =>
    db.attributes.any (fun r => r.facility_id == row.id && r.attribute_key == kv.1
      && likeContains r.attribute_value (pyStr kv.2))))

/-- A search result row: the denormalized facility plus the optional
`distance_miles` entry attached by the loop (ai.py:475-491). -/
structure SearchResult where
  facility : Facility
  distance_miles : Option ℝ

/-- `if latitude and longitude:` (ai.py:481 and 494). -/
def latlonTruthy (args : SearchArgs) : Bool :=
  optPFTruthy args.latitude && optPFTruthy args.longitude

open Classical in
/-- One iteration of the result loop (ai.py:476-491): re-read the facility
via `get_facility` (skip when that fails), attach the haversine distance
when both reference coordinates are truthy, and drop the row when a truthy
radius is exceeded. -/
noncomputable def searchRowStep (db : DB) (args : SearchArgs) (row : FacilityRow) :
    Option SearchResult :=
  match get_facility db row.id with
  | Option.none => Option.none
  | Option.some fac =>
    if latlonTruthy args then
      let d := calculate_distance ((args.latitude.getD ⟨false, 0, []⟩).toReal)
        ((args.longitude.getD ⟨false, 0, []⟩).toReal) fac.latitude.toReal fac.longitude.toReal
      if optPFTruthy args.max_distance_miles = true
          ∧ d > (args.max_distance_miles.getD ⟨false, 0, []⟩).toReal then
        Option.none
      else Option.some ⟨fac, Option.some d⟩
    else Option.some ⟨fac, Option.none⟩

/-- Sort key of the final `facilities.sort` (ai.py:495):
`x.get('distance_miles', float('inf'))`. -/
noncomputable def distKey (r : SearchResult) : WithTop ℝ :=
  match r.distance_miles with
  | Option.some d => (d : WithTop ℝ)
  | Option.none => ⊤

/-- The sort relation: ascending by distance key. -/
def distLE (a b : SearchResult) : Prop := distKey a ≤ distKey b

instance : IsTotal SearchResult distLE := ⟨fun a b => le_total (distKey a) (distKey b)⟩

instance : IsTrans SearchResult distLE :=
  ⟨fun _ _ _ hab hbc => le_trans hab hbc⟩

noncomputable instance distLE_dec : DecidableRel distLE :=
  fun _ _ => Classical.propDecidable _

open Classical in
/-- Model of `DatabaseManager.search_facilities` (ai.py:411-501): SQL filter
phase, per-row distance attachment and radius filter, and the final
distance sort (performed only when both reference coordinates are truthy;
Python's stable sort is modelled by insertion sort). -/
noncomputable def search_facilities (db : DB) (args : SearchArgs) : List SearchResult :=
  let rows := db.facilities.filter (rowMatches db args)
  let results := rows.filterMap (searchRowStep db args)
  if latlonTruthy args then List.insertionSort distLE results else results

/-- Characterization of a member of the search output when both reference
coordinates are truthy. -/
theorem search_mem_char (db : DB) (args : SearchArgs)
    (htr : latlonTruthy args = true) (r : SearchResult)
    (hr : r ∈ search_facilities db args) :
    ∃ fac d, r = ⟨fac, Option.some d⟩ ∧
      d = calculate_distance ((args.latitude.getD ⟨false, 0, []⟩).toReal)
        ((args.longitude.getD ⟨false, 0, []⟩).toReal) fac.latitude.toReal fac.longitude.toReal ∧
      ¬ (optPFTruthy args.max_distance_miles = true
          ∧ d > (args.max_distance_miles.getD ⟨false, 0, []⟩).toReal) := by
  rw [search_facilities] at hr
  rw [htr, if_pos rfl] at hr
  have hr2 : r ∈ (db.facilities.filter (rowMatches db args)).filterMap (searchRowStep db args) :=
    (List.perm_insertionSort distLE _).mem_iff.mp hr
  obtain ⟨row, -, hstep⟩ := List.mem_filterMap.mp hr2
  rw [searchRowStep] at hstep
  cases hg : get_facility db row.id with
  | none => rw [hg] at hstep; cases hstep
  | some fac =>
    rw [hg] at hstep
    dsimp only at hstep
    rw [htr, if_pos rfl] at hstep
    by_cases hcond : optPFTruthy args.max_distance_miles = true
        ∧ calculate_distance ((args.latitude.getD ⟨false, 0, []⟩).toReal)
            ((args.longitude.getD ⟨false, 0, []⟩).toReal) fac.latitude.toReal fac.longitude.toReal
          > (args.max_distance_miles.getD ⟨false, 0, []⟩).toReal
    · rw [if_pos hcond] at hstep
      cases hstep
    · rw [if_neg hcond] at hstep
      cases hstep
      exact ⟨fac, _, rfl, rfl, hcond⟩

/-- C5 counterexample input: one facility at (1.5, 1.5). -/
def c5_db : DB :=
  ⟨[⟨"f1", "X", "clinic", "a", ⟨false, 1, [5]⟩, ⟨false, 1, [5]⟩, Option.none, Option.none⟩],
   [], []⟩

/-- C5 counterexample arguments: latitude 0.0 and longitude 10.0 are both
supplied. -/
def c5_args : SearchArgs :=
  ⟨Option.none, Option.none, Option.none, [],
   Option.some ⟨false, 0, [0]⟩, Option.some ⟨false, 10, [0]⟩, Option.none⟩

/-- C5 counterexample: a call in which a reference latitude (0.0) and
longitude (10.0) are both supplied, yet the single returned facility has no
distance attached — `if latitude and longitude:` treats the zero coordinate
as absent, contradicting the claim as stated. -/
theorem c5_counterexample :
    (search_facilities c5_db c5_args).map (fun r => r.distance_miles) = [Option.none] := by
  rfl

/-- C5 (amended): for every `search_facilities` call in which the reference
latitude and longitude are supplied and truthy (nonzero — a zero coordinate
is treated as absent), every returned facility carries the haversine
distance from the reference point to that facility's coordinates; when a
maximum radius is also supplied and truthy (nonzero), no returned
facility's distance exceeds it; and the returned list is sorted ascending
by the attached distance. -/
theorem c5_distance_attach_filter_sort (db : DB) (args : SearchArgs) (la lo : PFloat)
    (hla : args.latitude = Option.some la) (hla0 : la.isZero = false)
    (hlo : args.longitude = Option.some lo) (hlo0 : lo.isZero = false) :
    (∀ r ∈ search_facilities db args,
      r.distance_miles = Option.some (calculate_distance la.toReal lo.toReal
        r.facility.latitude.toReal r.facility.longitude.toReal)) ∧
    (∀ m, args.max_distance_miles = Option.some m → m.isZero = false →
      ∀ r ∈ search_facilities db args, ∀ d, r.distance_miles = Option.some d →
        d ≤ m.toReal) ∧
    List.Sorted distLE (search_facilities db args) := by
  have htr : latlonTruthy args = true := by
    rw [latlonTruthy, hla, hlo]
    simp [optPFTruthy, hla0, hlo0]
  refine ⟨?_, ?_, ?_⟩
  · intro r hr
    obtain ⟨fac, d, rfl, hd, -⟩ := search_mem_char db args htr r hr
    rw [hd, hla, hlo]
    rfl
  · intro m hm hm0 r hr d hd
    obtain ⟨fac, d2, rfl, -, hnot⟩ := search_mem_char db args htr r hr
    cases hd
    rw [hm] at hnot
    have hmax : optPFTruthy (Option.some m) = true := by
      simp [optPFTruthy, hm0]
    push_neg at hnot
    exact le_of_not_lt (fun hlt => absurd ((hnot hmax).not_lt hlt) (by simp))
  · rw [search_facilities]
    rw [htr, if_pos rfl]
    exact List.sorted_insertionSort distLE _

/-- C5 witness: the amended theorem applied at a store with one facility and
truthy reference coordinates (2.0, 3.0). -/
theorem c5_distance_attach_filter_sort_witness :
    ((⟨Option.none, Option.none, Option.none, [], Option.some ⟨false, 2, [0]⟩,
        Option.some ⟨false, 3, [0]⟩, Option.none⟩ : SearchArgs).latitude
      = Option.some ⟨false, 2, [0]⟩) ∧
    (PFloat.isZero ⟨false, 2, [0]⟩ = false) ∧
    ((∀ r ∈ search_facilities c5_db
        ⟨Option.none, Option.none, Option.none, [], Option.some ⟨false, 2, [0]⟩,
          Option.some ⟨false, 3, [0]⟩, Option.none⟩,
      r.distance_miles = Option.some (calculate_distance (PFloat.toReal ⟨false, 2, [0]⟩)
        (PFloat.toReal ⟨false, 3, [0]⟩)
        r.facility.latitude.toReal r.facility.longitude.toReal)) ∧
    (∀ m, (⟨Option.none, Option.none, Option.none, [], Option.some ⟨false, 2, [0]⟩,
          Option.some ⟨false, 3, [0]⟩, Option.none⟩ : SearchArgs).max_distance_miles
        = Option.some m → m.isZero = false →
      ∀ r ∈ search_facilities c5_db
        ⟨Option.none, Option.none, Option.none, [], Option.some ⟨false, 2, [0]⟩,
          Option.some ⟨false, 3, [0]⟩, Option.none⟩, ∀ d, r.distance_miles = Option.some d →
        d ≤ m.toReal) ∧
    List.Sorted distLE (search_facilities c5_db
      ⟨Option.none, Option.none, Option.none, [], Option.some ⟨false, 2, [0]⟩,
        Option.some ⟨false, 3, [0]⟩, Option.none⟩)) :=
  ⟨rfl, by decide,
   c5_distance_attach_filter_sort c5_db
     ⟨Option.none, Option.none, Option.none, [], Option.some ⟨false, 2, [0]⟩,
       Option.some ⟨false, 3, [0]⟩, Option.none⟩
     ⟨false, 2, [0]⟩ ⟨false, 3, [0]⟩ rfl (by decide) rfl (by decide)⟩

/-- Keyword-argument lookup (Python `**arguments` binding). -/
def lookupArg (args : List (String × PyVal)) (k : String) : Option PyVal :=
  (args.find? (fun kv => kv.1 == k)).map Prod.snd

/-- A string-typed optional argument as the SQL layer consumes it; non-string
filter arguments are treated as absent (model restriction, unexercised by
the claims). -/
def pvOptStr : Option PyVal → Option String
  | Option.some (PyVal.str s) => Option.some s
  | _ => Option.none

/-- The per-facility payload `find_healthcare_facilities` builds
(ai.py:1031-1041); timestamps elided as before. -/
def facilityJson (f : Facility) : PyVal :=
  PyVal.dict [("id", PyVal.str f.id), ("name", PyVal.str f.name),
    ("type", PyVal.str f.facility_type), ("address", PyVal.str f.address),
    ("coordinates", PyVal.dict [("lat", PyVal.float f.latitude),
      ("lon", PyVal.float f.longitude)]),
    ("services", PyVal.list (f.services.map PyVal.str)),
    ("rating", match f.rating with
      | Option.some r => PyVal.float r
      | Option.none => PyVal.none),
    ("phone", match f.phone with
      | Option.some p => PyVal.str p
      | Option.none => PyVal.none),
    ("attributes", PyVal.dict f.attributes)]

/-- Handler body of `find_healthcare_facilities` (ai.py:1014-1048): searches
by type/service only (no coordinates are passed to the search), formats the
rows, and echoes location and radius. -/
noncomputable def find_healthcare_facilities (db : DB) (loc : PyVal)
    (ft sv : Option PyVal) (radius : PyVal) : PyVal :=
  let facs := search_facilities db
    ⟨pvOptStr ft, pvOptStr sv, Option.none, [], Option.none, Option.none, Option.none⟩
  PyVal.dict [("location", loc), ("radius_miles", radius),
    ("facilities_found", PyVal.int facs.length),
    ("facilities", PyVal.list (facs.map (fun r => facilityJson r.facility)))]

/-- Python `**arguments` binding for `find_healthcare_facilities`: an
unexpected keyword or a missing required `location` raises `TypeError`. -/
def bindFind (args : List (String × PyVal)) :
    Except String (PyVal × Option PyVal × Option PyVal × PyVal) :=
  if args.any (fun kv =>
      !((["location", "facility_type", "service", "radius"] : List String).contains kv.1)) then
    Except.error "TypeError: unexpected keyword argument"
  else
    match lookupArg args "location" with
    | Option.none => Except.error "TypeError: missing required argument: location"
    | Option.some loc =>
      Except.ok (loc, lookupArg args "facility_type", lookupArg args "service",
        (lookupArg args "radius").getD (PyVal.float ⟨false, 10, [0]⟩))

/-- Handler body of `get_facility_details` (ai.py:1050-1070); a non-string
id never matches the TEXT primary key. -/
def get_facility_details (db : DB) (fidv : PyVal) : PyVal :=
  match (match fidv with
         | PyVal.str s => get_facility db s
         | _ => Option.none) with
  | Option.none => PyVal.dict [("error", PyVal.str ("Facility " ++ pyStr fidv ++ " not found"))]
  | Option.some f =>
    PyVal.dict [("id", PyVal.str f.id), ("name", PyVal.str f.name),
      ("type", PyVal.str f.facility_type), ("address", PyVal.str f.address),
      ("coordinates", PyVal.dict [("lat", PyVal.float f.latitude),
        ("lon", PyVal.float f.longitude)]),
      ("services", PyVal.list (f.services.map PyVal.str)),
      ("rating", match f.rating with
        | Option.some r => PyVal.float r
        | Option.none => PyVal.none),
      ("phone", match f.phone with
        | Option.some p => PyVal.str p
        | Option.none => PyVal.none),
      ("attributes", PyVal.dict f.attributes),
      ("full_details", PyVal.bool true)]

/-- Binding for `get_facility_details` (required `facility_id`). -/
def bindDetails (args : List (String × PyVal)) : Except String PyVal :=
  if args.any (fun kv => !((["facility_id"] : List String).contains kv.1)) then
    Except.error "TypeError: unexpected keyword argument"
  else
    match lookupArg args "facility_id" with
    | Option.none => Except.error "TypeError: missing required argument: facility_id"
    | Option.some v => Except.ok v

/-- Binding for `search_facilities_by_service` (required `service` and
`location`; ai.py:1072-1083 delegates to `find_healthcare_facilities`). -/
def bindByService (args : List (String × PyVal)) :
    Except String (PyVal × PyVal × PyVal) :=
  if args.any (fun kv =>
      !((["service", "location", "radius"] : List String).contains kv.1)) then
    Except.error "TypeError: unexpected keyword argument"
  else
    match lookupArg args "service" with
    | Option.none => Except.error "TypeError: missing required argument: service"
    | Option.some sv =>
      match lookupArg args "location" with
      | Option.none => Except.error "TypeError: missing required argument: location"
      | Option.some loc =>
        Except.ok (sv, loc, (lookupArg args "radius").getD (PyVal.float ⟨false, 10, [0]⟩))

/-- Handler body of `get_patient_health_data` (ai.py:1085-1097, a stub). -/
def get_patient_health_data (pid dt : PyVal) : PyVal :=
  PyVal.dict [("patient_id", pid), ("data_type", dt),
    ("message", PyVal.str "Patient data retrieval requires authentication"),
    ("note", PyVal.str
      "This is a simulated response. In production, implement secure patient data access.")]

/-- Binding for `get_patient_health_data` (required `patient_id`, optional
`data_type` defaulting to "all"). -/
def bindPatient (args : List (String × PyVal)) : Except String (PyVal × PyVal) :=
  if args.any (fun kv => !((["patient_id", "data_type"] : List String).contains kv.1)) then
    Except.error "TypeError: unexpected keyword argument"
  else
    match lookupArg args "patient_id" with
    | Option.none => Except.error "TypeError: missing required argument: patient_id"
    | Option.some pid =>
      Except.ok (pid, (lookupArg args "data_type").getD (PyVal.str "all"))

/-- Binding for `schedule_appointment` (required `facility_id`,
`service_type`, `date`; optional `patient_id` defaulting to None). -/
def bindSchedule (args : List (String × PyVal)) :
    Except String (PyVal × PyVal × PyVal × PyVal) :=
  if args.any (fun kv =>
      !((["facility_id", "service_type", "date", "patient_id"] : List String).contains kv.1)) then
    Except.error "TypeError: unexpected keyword argument"
  else
    match lookupArg args "facility_id" with
    | Option.none => Except.error "TypeError: missing required argument: facility_id"
    | Option.some fidv =>
      match lookupArg args "service_type" with
      | Option.none => Except.error "TypeError: missing required argument: service_type"
      | Option.some svt =>
        match lookupArg args "date" with
        | Option.none => Except.error "TypeError: missing required argument: date"
        | Option.some dt =>
          Except.ok (fidv, svt, dt, (lookupArg args "patient_id").getD PyVal.none)

/-- Handler body of `schedule_appointment` (ai.py:1099-1139): requires the
facility to exist (else a not-found payload), appends an appointment record
to the `appointments` attribute (raising `AttributeError` if a stored
`appointments` value is not a list), and writes it back through
`update_facility_attribute`.  `now` stands for the timestamp
`datetime.now().strftime('%Y%m%d%H%M%S')`. -/
def schedule_appointment (db : DB) (now : String) (fidv svt dt pidv : PyVal) :
    Except String (PyVal × DB) :=
  match (match fidv with
         | PyVal.str s => (get_facility db s).map (fun f => (s, f))
         | _ => Option.none) with
  | Option.none =>
    Except.ok (PyVal.dict [("error", PyVal.str ("Facility " ++ pyStr fidv ++ " not found"))], db)
  | Option.some (s, fac) =>
    match (match lookupArg fac.attributes "appointments" with
           | Option.some (PyVal.list xs) => Except.ok xs
           | Option.none => Except.ok []
           | Option.some _ => Except.error "AttributeError: object has no attribute append") with
    | Except.error e => Except.error e
    | Except.ok appts =>
      let newAppt := PyVal.dict [("appointment_id", PyVal.str ("apt_" ++ now)),
        ("service_type", svt), ("date", dt), ("patient_id", pidv),
        ("status", PyVal.str "scheduled")]
      let upd := update_facility_attribute db s "appointments"
        (PyVal.list (appts ++ [newAppt]))
      Except.ok (PyVal.dict [("success", PyVal.bool true),
        ("appointment_id", PyVal.str ("apt_" ++ now)),
        ("facility", PyVal.str fac.name), ("facility_id", fidv), ("service", svt),
        ("date", dt), ("patient_id", pidv), ("status", PyVal.str "scheduled"),
        ("message", PyVal.str "Appointment scheduled successfully")], upd.2)

/-- Model of `HealthcareMapAI._execute_function` (ai.py:990-1012): a string
dispatch over the five registered operations with an unknown-function
payload as the fallback.  The handlers perform Python keyword binding, so a
missing required argument surfaces as an `Except.error` (a raised
`TypeError`), which `_execute_function` does not catch. -/
noncomputable def execute_function (db : DB) (now : String) (function_name : String)
    (arguments : List (String × PyVal)) : Except String (PyVal × DB) :=
  if function_name = "find_healthcare_facilities" then
    match bindFind arguments with
    | Except.error e => Except.error e
    | Except.ok (loc, ft, sv, rad) =>
      Except.ok (find_healthcare_facilities db loc ft sv rad, db)
  else if function_name = "get_facility_details" then
    match bindDetails arguments with
    | Except.error e => Except.error e
    | Except.ok fidv => Except.ok (get_facility_details db fidv, db)
  else if function_name = "search_facilities_by_service" then
    match bindByService arguments with
    | Except.error e => Except.error e
    | Except.ok (sv, loc, rad) =>
      Except.ok (find_healthcare_facilities db loc Option.none (Option.some sv) rad, db)
  else if function_name = "get_patient_health_data" then
    match bindPatient arguments with
    | Except.error e => Except.error e
    | Except.ok (pid, dt) => Except.ok (get_patient_health_data pid dt, db)
  else if function_name = "schedule_appointment" then
    match bindSchedule arguments with
    | Except.error e => Except.error e
    | Except.ok (fidv, svt, dt, pidv) => schedule_appointment db now fidv svt dt pidv
  else
    Except.ok (PyVal.dict [("error", PyVal.str ("Unknown function: " ++ function_name))], db)

/-- C6 counterexample: dispatching the registered name
`find_healthcare_facilities` with an empty argument mapping (no `location`)
raises a `TypeError` out of `_execute_function` — there is no try/except
and no argument validation — rather than returning a structured error
payload as the claim states. -/
theorem c6_counterexample :
    execute_function ⟨[], [], []⟩ "20241215" "find_healthcare_facilities" []
      = Except.error "TypeError: missing required argument: location" := by
  rfl

/-- C6 (amended): dispatching a name outside the five registered operations
returns the structured payload `{"error": "Unknown function: <name>"}`
without raising; but a registered name whose argument mapping is missing a
required key (for example `find_healthcare_facilities` without `location`)
raises a `TypeError` that escapes `_execute_function` to the caller — the
dispatcher performs no argument validation and has no exception handler. -/
theorem c6_unknown_payload_missing_arg_raises :
    (∀ (db : DB) (now name : String) (args : List (String × PyVal)),
      name ∉ (["find_healthcare_facilities", "get_facility_details",
        "search_facilities_by_service", "get_patient_health_data",
        "schedule_appointment"] : List String) →
      execute_function db now name args
        = Except.ok (PyVal.dict [("error", PyVal.str ("Unknown function: " ++ name))], db)) ∧
    (∀ (db : DB) (now : String) (args : List (String × PyVal)),
      lookupArg args "location" = Option.none →
      ∃ e, execute_function db now "find_healthcare_facilities" args = Except.error e) := by
  constructor
  · intro db now name args h
    simp only [List.mem_cons, List.not_mem_nil, or_false] at h
    push_neg at h
    obtain ⟨h1, h2, h3, h4, h5⟩ := h
    rw [execute_function, if_neg h1, if_neg h2, if_neg h3, if_neg h4, if_neg h5]
  · intro db now args hloc
    by_cases hbad : args.any (fun kv =>
        !((["location", "facility_type", "service", "radius"] : List String).contains kv.1)) = true
    · refine ⟨"TypeError: unexpected keyword argument", ?_⟩
      rw [execute_function, if_pos rfl, bindFind, if_pos hbad]
    · refine ⟨"TypeError: missing required argument: location", ?_⟩
      rw [execute_function, if_pos rfl, bindFind, if_neg hbad, hloc]

/-- C6 witness: an unregistered name returns the unknown-function payload. -/
theorem c6_unknown_payload_missing_arg_raises_witness :
    ("frobnicate" : String) ∉ (["find_healthcare_facilities", "get_facility_details",
      "search_facilities_by_service", "get_patient_health_data",
      "schedule_appointment"] : List String) ∧
    execute_function ⟨[], [], []⟩ "20241215" "frobnicate" []
      = Except.ok (PyVal.dict [("error", PyVal.str ("Unknown function: " ++ "frobnicate"))],
          ⟨[], [], []⟩) :=
  ⟨by decide,
   c6_unknown_payload_missing_arg_raises.1 ⟨[], [], []⟩ "20241215" "frobnicate" [] (by decide)⟩
